import Mathlib

/-!
Ready Trader Go autotrader: a shallow embedding of `autotrader.cc`.

The handlers of `AutoTrader` are translated into pure functions on an explicit state.
A handler returns the new state together with the commands it sent to the exchange, in the
order in which it sent them.

Conventions of the embedding:

* `unsigned long` is 64 bits wide and `float` is IEEE binary32 with round-to-nearest,
  ties-to-even.  Every value the program stores in a `float` is an integer, so a `float` is
  represented by the integer it holds and the rounding is done on integers (`roundToFloat`).
* Undefined behaviour (an unsigned division by zero, a `float` converted to `unsigned long`
  outside the range of that type) makes a handler return `none`.
* Unsigned arithmetic is reduced modulo `2 ^ 64` explicitly.  Values of type `long` and
  `int` are reduced to the two's-complement range of 64 and 32 bits (`wrapLong`, `wrapInt`):
  this is the conversion `(long)volume` and the narrowing to `int diff`, and it is the value
  the machine arithmetic leaves where a signed operation runs out of its range.  The id
  counter is kept as an unbounded natural number: it leaves its type only after `2 ^ 64`
  orders.
-/

set_option linter.unusedVariables false

namespace ReadyTraderGo

/-! ## Framework vocabulary -/

/-- Modelled from the spec: the instrument tag of a market-data event (the enumeration is
declared in the framework headers, which are not part of the sources). -/
inductive Instrument where
  | FUTURE
  | ETF
  deriving DecidableEq, Repr

/-- Modelled from the spec: the side of an order (declared in the framework headers). -/
inductive Side where
  | SELL
  | BUY
  deriving DecidableEq, Repr

/-- Modelled from the spec: the time in force of an order (declared in the framework
headers). -/
inductive Lifespan where
  | FILL_AND_KILL
  | GOOD_FOR_DAY
  deriving DecidableEq, Repr

/-- Modelled from the spec: the fixed depth of the top-of-book arrays (`TOP_LEVEL_COUNT`,
declared in the framework headers).  The handlers read index 0 only, so every positive depth
gives the same behaviour. -/
abbrev TOP_LEVEL_COUNT : Nat := 5

/-- A `std::array<unsigned long, TOP_LEVEL_COUNT>`; index 0 is the best level. -/
abbrev Levels := Fin TOP_LEVEL_COUNT → Nat

/-- The two price limits of the framework that `OrderFilledMessageHandler` uses.  Their
values are declared in the framework headers, so they are parameters of the embedding. -/
structure Limits where
  MAXIMUM_ASK : Nat
  MINIMUM_BID : Nat
  deriving DecidableEq, Repr

/-- The commands a handler sends to the exchange.  `InsertOrder` records the arguments of
`SendInsertOrder` as the handler passes them: the volume is the `int` held by `ask_volume` or
`bid_volume`.  `CancelOrder` is a `CANCEL_ORDER` message with the given client order id.
`HedgeOrder` records the arguments of `SendHedgeOrder`. -/
inductive Command where
  | InsertOrder (clientOrderId : Nat) (side : Side) (price : Nat) (volume : Int)
      (lifespan : Lifespan)
  | CancelOrder (clientOrderId : Nat)
  | HedgeOrder (clientOrderId : Nat) (side : Side) (price : Nat) (volume : Nat)
  deriving DecidableEq, Repr

/-! ## State -/

/-- Line 31: `constexpr int TICK_SIZE_IN_CENTS = 100`. -/
def TICK_SIZE_IN_CENTS : Nat := 100

/-- The members of `AutoTrader` that the handlers use, followed by the file-level globals of
`autotrader.cc` (lines 32 to 38).  `theo` is the integer held by the `float` global;
`bidCancel` and `askCancel` are the client order ids of the two stored cancel messages. -/
structure AutoTrader where
  mNextMessageId : Nat
  mAskId : Nat
  mAskPrice : Nat
  mBidId : Nat
  mBidPrice : Nat
  mPosition : Int
  mAsks : Finset Nat
  mBids : Finset Nat
  theo : Int
  ask_volume : Int
  bid_volume : Int
  tick_since_last_bid : Int
  tick_since_last_ask : Int
  bidCancel : Nat
  askCancel : Nat
  deriving DecidableEq

/-- Modelled from the spec: the state at start-up.  The member initialisers are in the class
declaration, which is not part of the sources: no resting order, empty membership sets,
position 0 and a first client order id `nextId`.  The globals start as lines 32 to 38
initialise them. -/
def initialState (nextId : Nat) : AutoTrader where
  mNextMessageId := nextId
  mAskId := 0
  mAskPrice := 0
  mBidId := 0
  mBidPrice := 0
  mPosition := 0
  mAsks := ∅
  mBids := ∅
  theo := 0
  ask_volume := 0
  bid_volume := 0
  tick_since_last_bid := 0
  tick_since_last_ask := 0
  bidCancel := 0
  askCancel := 0

/-! ## Machine arithmetic -/

/-- Conversion of a signed integer to `unsigned long`. -/
def toUnsignedLong (x : Int) : Nat := (x % 2 ^ 64).toNat

/-- The value of type `long` that is congruent to `x` modulo `2 ^ 64`: the conversion of an
integer to `long` and the result of 64-bit two's-complement arithmetic. -/
def wrapLong (x : Int) : Int := (x + 2 ^ 63) % 2 ^ 64 - 2 ^ 63

/-- The value of type `int` that is congruent to `x` modulo `2 ^ 32`: the narrowing of an
integer to `int` and the result of 32-bit two's-complement arithmetic. -/
def wrapInt (x : Int) : Int := (x + 2 ^ 31) % 2 ^ 32 - 2 ^ 31

/-- The number of low bits that a binary32 significand of 24 bits cannot hold. -/
def float32Shift : Nat → Nat → Nat
  | 0, _ => 0
  | fuel + 1, n => if n < 2 ^ 24 then 0 else float32Shift fuel (n / 2) + 1

/-- The binary32 value nearest to the natural number `n`, ties to even. -/
def roundToFloat (n : Nat) : Nat :=
  let e := float32Shift n n
  let q := n / 2 ^ e
  let r := n % 2 ^ e
  if 2 * r < 2 ^ e then q * 2 ^ e
  else if 2 ^ e < 2 * r then (q + 1) * 2 ^ e
  else if q % 2 = 0 then q * 2 ^ e
  else (q + 1) * 2 ^ e

/-- The binary32 value nearest to the integer `x`. -/
def floatOfInt (x : Int) : Int :=
  if 0 ≤ x then (roundToFloat x.toNat : Int) else -(roundToFloat (-x).toNat : Int)

/-- Conversion of an integer-valued `float` to `unsigned long`; undefined outside the range
of the type. -/
def floatToUnsignedLong (x : Int) : Option Nat :=
  if 0 ≤ x ∧ x < 2 ^ 64 then some x.toNat else none

/-! ## Price reference and quote policy (lines 83 to 109) -/

/-- The `unsigned long` value of the right-hand side of line 83. -/
def fairValue (bidPrice askPrice bidVolume askVolume : Nat) : Option Nat :=
  let total := (bidVolume + askVolume) % 2 ^ 64
  if total = 0 then none
  else
    let weighted := ((bidPrice * askVolume) % 2 ^ 64 + (askPrice * bidVolume) % 2 ^ 64) % 2 ^ 64
    some ((weighted / total + 50) % 2 ^ 64 / 100 * 100)

/-- The tick count of the bid offset, `3 + (mPosition / 50)`. -/
def bidTicks (mPosition : Int) : Int := 3 + Int.tdiv mPosition 50

/-- The tick count of the ask offset, `3 - (mPosition / 50)`. -/
def askTicks (mPosition : Int) : Int := 3 - Int.tdiv mPosition 50

/-- Line 84. -/
def bidAdjustment (mPosition : Int) : Nat :=
  toUnsignedLong (bidTicks mPosition * (TICK_SIZE_IN_CENTS : Int))

/-- Line 85. -/
def askAdjustment (mPosition : Int) : Nat :=
  toUnsignedLong (askTicks mPosition * (TICK_SIZE_IN_CENTS : Int))

/-- Line 91: `(askPrices[0] != 0) ? theo + askAdjustment : 0`, converted to `unsigned long`. -/
def newAskPrice (theo : Int) (askPrice : Nat) (adjustment : Nat) : Option Nat :=
  floatToUnsignedLong
    (if askPrice ≠ 0 then floatOfInt (theo + floatOfInt (adjustment : Int)) else 0)

/-- Line 92: `(bidPrices[0] != 0) ? theo - bidAdjustment : 0`, converted to `unsigned long`. -/
def newBidPrice (theo : Int) (bidPrice : Nat) (adjustment : Nat) : Option Nat :=
  floatToUnsignedLong
    (if bidPrice ≠ 0 then floatOfInt (theo - floatOfInt (adjustment : Int)) else 0)

/-- Lines 94 to 106: the pair `(new_bid_volume, new_ask_volume)`.  The difference is
computed in `long` and narrowed to `int diff`; the two sizes are computed in `int`. -/
def quoteVolumes (mPosition : Int) : Int × Int :=
  let start : Int × Int := (50, 50)
  let above : Int × Int :=
    if mPosition > 50 then
      (wrapInt (50 - wrapInt (wrapLong (mPosition - 50))),
       wrapInt (50 + wrapInt (wrapLong (mPosition - 50))))
    else start
  if mPosition < -50 then
    (wrapInt (50 + wrapInt (wrapLong (wrapLong (-mPosition) - 50))),
     wrapInt (50 - wrapInt (wrapLong (wrapLong (-mPosition) - 50))))
  else above

/-- The values lines 83 to 106 compute for one future order book. -/
structure Quote where
  theo : Int
  newAskPrice : Nat
  newBidPrice : Nat
  new_bid_volume : Int
  new_ask_volume : Int
  deriving DecidableEq, Repr

/-- Lines 83 to 106. -/
def computeQuote (mPosition : Int) (askPrices askVolumes bidPrices bidVolumes : Levels) :
    Option Quote :=
  match fairValue (bidPrices 0) (askPrices 0) (bidVolumes 0) (askVolumes 0) with
  | none => none
  | some value =>
    let theo := floatOfInt (value : Int)
    match newAskPrice theo (askPrices 0) (askAdjustment mPosition) with
    | none => none
    | some ask =>
      match newBidPrice theo (bidPrices 0) (bidAdjustment mPosition) with
      | none => none
      | some bid =>
        some { theo := theo, newAskPrice := ask, newBidPrice := bid,
               new_bid_volume := (quoteVolumes mPosition).1,
               new_ask_volume := (quoteVolumes mPosition).2 }

/-! ## Order lifecycle (lines 108 to 139) -/

/-- The guard of line 111. -/
def askStale (s : AutoTrader) (price : Nat) : Prop :=
  s.mAskId ≠ 0 ∧ price ≠ 0 ∧ price ≠ s.mAskPrice

/-- The guard of line 117. -/
def bidStale (s : AutoTrader) (price : Nat) : Prop :=
  s.mBidId ≠ 0 ∧ price ≠ 0 ∧ price ≠ s.mBidPrice

instance (s : AutoTrader) (price : Nat) : Decidable (askStale s price) :=
  inferInstanceAs (Decidable (s.mAskId ≠ 0 ∧ price ≠ 0 ∧ price ≠ s.mAskPrice))

instance (s : AutoTrader) (price : Nat) : Decidable (bidStale s price) :=
  inferInstanceAs (Decidable (s.mBidId ≠ 0 ∧ price ≠ 0 ∧ price ≠ s.mBidPrice))

/-- Lines 108 and 109. -/
def storeVolumes (s : AutoTrader) (q : Quote) : AutoTrader :=
  { s with theo := q.theo, bid_volume := q.new_bid_volume, ask_volume := q.new_ask_volume }

/-- Lines 111 to 116. -/
def cancelAsk (s : AutoTrader) (q : Quote) : AutoTrader × List Command :=
  if askStale s q.newAskPrice then
    ({ s with mAskId := 0 }, [Command.CancelOrder s.askCancel])
  else (s, [])

/-- Lines 117 to 122. -/
def cancelBid (s : AutoTrader) (q : Quote) : AutoTrader × List Command :=
  if bidStale s q.newBidPrice then
    ({ s with mBidId := 0 }, [Command.CancelOrder s.bidCancel])
  else (s, [])

/-- Lines 124 to 130. -/
def insertAsk (s : AutoTrader) (q : Quote) : AutoTrader × List Command :=
  if s.mAskId = 0 ∧ q.newAskPrice ≠ 0 then
    ({ s with
        mAskId := s.mNextMessageId
        mNextMessageId := s.mNextMessageId + 1
        mAskPrice := q.newAskPrice
        mAsks := insert s.mNextMessageId s.mAsks },
     [Command.InsertOrder s.mNextMessageId Side.SELL q.newAskPrice s.ask_volume
        Lifespan.GOOD_FOR_DAY])
  else (s, [])

/-- Lines 131 to 137. -/
def insertBid (s : AutoTrader) (q : Quote) : AutoTrader × List Command :=
  if s.mBidId = 0 ∧ q.newBidPrice ≠ 0 then
    ({ s with
        mBidId := s.mNextMessageId
        mNextMessageId := s.mNextMessageId + 1
        mBidPrice := q.newBidPrice
        mBids := insert s.mNextMessageId s.mBids },
     [Command.InsertOrder s.mNextMessageId Side.BUY q.newBidPrice s.bid_volume
        Lifespan.GOOD_FOR_DAY])
  else (s, [])

/-- Lines 138 and 139. -/
def storeCancels (s : AutoTrader) : AutoTrader :=
  { s with bidCancel := s.mBidId, askCancel := s.mAskId }

/-- Lines 108 to 139: the state after the refresh and the commands sent, in order. -/
def refreshQuotes (s : AutoTrader) (q : Quote) : AutoTrader × List Command :=
  let s0 := storeVolumes s q
  let r1 := cancelAsk s0 q
  let r2 := cancelBid r1.1 q
  let r3 := insertAsk r2.1 q
  let r4 := insertBid r3.1 q
  (storeCancels r4.1, r1.2 ++ r2.2 ++ r3.2 ++ r4.2)

/-! ## Handlers -/

/-- Handler `AutoTrader::OrderBookMessageHandler` (lines 73 to 149). -/
def OrderBookMessageHandler (s : AutoTrader) (instrument : Instrument) (sequenceNumber : Nat)
    (askPrices askVolumes bidPrices bidVolumes : Levels) : Option (AutoTrader × List Command) :=
  if instrument = Instrument.FUTURE then
    match computeQuote s.mPosition askPrices askVolumes bidPrices bidVolumes with
    | none => none
    | some q => some (refreshQuotes s q)
  else some (s, [])

/-- Handler `AutoTrader::OrderFilledMessageHandler` (lines 151 to 171).  Lines 158 and 164
convert the `unsigned long` volume with `(long)volume` and update the `signed long`
position. -/
def OrderFilledMessageHandler (limits : Limits) (s : AutoTrader)
    (clientOrderId price volume : Nat) : AutoTrader × List Command :=
  if clientOrderId ∈ s.mAsks then
    ({ s with
        mPosition := wrapLong (s.mPosition - wrapLong (volume : Int))
        mNextMessageId := s.mNextMessageId + 1
        tick_since_last_ask := 0 },
     [Command.HedgeOrder s.mNextMessageId Side.BUY
        (limits.MAXIMUM_ASK / TICK_SIZE_IN_CENTS * TICK_SIZE_IN_CENTS) volume])
  else if clientOrderId ∈ s.mBids then
    ({ s with
        mPosition := wrapLong (s.mPosition + wrapLong (volume : Int))
        mNextMessageId := s.mNextMessageId + 1
        tick_since_last_bid := 0 },
     [Command.HedgeOrder s.mNextMessageId Side.SELL limits.MINIMUM_BID volume])
  else (s, [])

/-- Handler `AutoTrader::OrderStatusMessageHandler` (lines 173 to 192). -/
def OrderStatusMessageHandler (s : AutoTrader) (clientOrderId fillVolume remainingVolume : Nat)
    (fees : Int) : AutoTrader × List Command :=
  if remainingVolume = 0 then
    let s1 : AutoTrader :=
      if clientOrderId = s.mAskId then { s with mAskId := 0 }
      else if clientOrderId = s.mBidId then { s with mBidId := 0 }
      else s
    ({ s1 with mAsks := s1.mAsks.erase clientOrderId, mBids := s1.mBids.erase clientOrderId }, [])
  else (s, [])

/-- Handler `AutoTrader::ErrorMessageHandler` (lines 55 to 63). -/
def ErrorMessageHandler (s : AutoTrader) (clientOrderId : Nat) (errorMessage : String) :
    AutoTrader × List Command :=
  if clientOrderId ≠ 0 then OrderStatusMessageHandler s clientOrderId 0 0 0 else (s, [])

/-- Handler `AutoTrader::HedgeFilledMessageHandler` (lines 65 to 71): logging only. -/
def HedgeFilledMessageHandler (s : AutoTrader) (clientOrderId price volume : Nat) :
    AutoTrader × List Command :=
  (s, [])

/-- Handler `AutoTrader::TradeTicksMessageHandler` (lines 194 to 250): the body of the branch for
the future is commented out, so only logging remains. -/
def TradeTicksMessageHandler (s : AutoTrader) (instrument : Instrument) (sequenceNumber : Nat)
    (askPrices askVolumes bidPrices bidVolumes : Levels) : AutoTrader × List Command :=
  (s, [])

/-! ## Event sequences -/

/-- The events the exchange connection delivers to the handlers. -/
inductive Event where
  | OrderBook (instrument : Instrument) (sequenceNumber : Nat)
      (askPrices askVolumes bidPrices bidVolumes : Levels)
  | TradeTicks (instrument : Instrument) (sequenceNumber : Nat)
      (askPrices askVolumes bidPrices bidVolumes : Levels)
  | OrderFilled (clientOrderId price volume : Nat)
  | OrderStatus (clientOrderId fillVolume remainingVolume : Nat) (fees : Int)
  | ErrorMessage (clientOrderId : Nat) (errorMessage : String)
  | HedgeFilled (clientOrderId price volume : Nat)

/-- Dispatch of one event to its handler. -/
def step (limits : Limits) (s : AutoTrader) : Event → Option (AutoTrader × List Command)
  | Event.OrderBook i n ap av bp bv => OrderBookMessageHandler s i n ap av bp bv
  | Event.TradeTicks i n ap av bp bv => some (TradeTicksMessageHandler s i n ap av bp bv)
  | Event.OrderFilled id p v => some (OrderFilledMessageHandler limits s id p v)
  | Event.OrderStatus id f r fees => some (OrderStatusMessageHandler s id f r fees)
  | Event.ErrorMessage id msg => some (ErrorMessageHandler s id msg)
  | Event.HedgeFilled id p v => some (HedgeFilledMessageHandler s id p v)

/-- Events are handled one at a time, each to completion; the commands are collected in the
order they were sent.  The run is undefined as soon as one handler is. -/
def run (limits : Limits) (s : AutoTrader) : List Event → Option (AutoTrader × List Command)
  | [] => some (s, [])
  | e :: es =>
    match step limits s e with
    | none => none
    | some r =>
      match run limits r.1 es with
      | none => none
      | some r2 => some (r2.1, r.2 ++ r2.2)

/-- The client order ids of the insert and hedge orders among the commands, in order. -/
def orderIds : List Command → List Nat
  | [] => []
  | Command.InsertOrder id _ _ _ _ :: cs => id :: orderIds cs
  | Command.HedgeOrder id _ _ _ :: cs => id :: orderIds cs
  | Command.CancelOrder _ :: cs => orderIds cs

/-- The client order ids of the cancel messages among the commands, in order. -/
def cancelIds : List Command → List Nat
  | [] => []
  | Command.CancelOrder id :: cs => id :: cancelIds cs
  | _ :: cs => cancelIds cs

/-- The volumes of the insert orders among the commands, in order. -/
def insertVolumes : List Command → List Int
  | [] => []
  | Command.InsertOrder _ _ _ v _ :: cs => v :: insertVolumes cs
  | _ :: cs => insertVolumes cs

/-- A future order-book event whose four arrays hold the given best level at every index. -/
def futureBook (sequenceNumber askPrice askVolume bidPrice bidVolume : Nat) : Event :=
  Event.OrderBook Instrument.FUTURE sequenceNumber (fun _ => askPrice) (fun _ => askVolume)
    (fun _ => bidPrice) (fun _ => bidVolume)

/-- Limits used when a handler is evaluated on concrete inputs. -/
def sampleLimits : Limits := { MAXIMUM_ASK := 2147483647, MINIMUM_BID := 1 }

/-- An event is an order-book update for the future. -/
def isFutureBook : Event → Prop
  | Event.OrderBook Instrument.FUTURE _ _ _ _ _ => True
  | _ => False

/-- A session used for concrete evaluation: a first quote, a fill of 20 lots of the resting
ask with its hedge fill and status update, then a book that moved up by two ticks. -/
def sampleSession : List Event :=
  [futureBook 1 10200 50 10000 100,
   Event.OrderFilled 1 10400 20,
   Event.HedgeFilled 3 10450 20,
   Event.OrderStatus 1 20 30 5,
   futureBook 2 10400 50 10200 100]

/-- Two future order books in a row, the second two ticks above the first. -/
def movingBooks : List Event :=
  [futureBook 1 10200 50 10000 100, futureBook 2 10400 50 10200 100]

/-- The state right after the first quote of a session whose first id is 1: ask order 1 and
bid order 2 are resting. -/
def quotingState : AutoTrader :=
  { initialState 3 with
    mAskId := 1, mAskPrice := 10400, mBidId := 2, mBidPrice := 9800, mAsks := {1},
    mBids := {2}, theo := 10100, ask_volume := 50, bid_volume := 50, bidCancel := 2,
    askCancel := 1 }

/-- The quote computed in the quoting state for the book that moved up by two ticks. -/
def movedQuote : Quote :=
  { theo := 10300, newAskPrice := 10600, newBidPrice := 10000, new_bid_volume := 50,
    new_ask_volume := 50 }

/-- The stored cancel message of a side carries the id resting on that side, whenever an
order rests there. -/
def snapshotCurrent (s : AutoTrader) : Prop :=
  (s.mAskId ≠ 0 → s.askCancel = s.mAskId) ∧ (s.mBidId ≠ 0 → s.bidCancel = s.mBidId)

/-- A session in which 150 lots of the resting bid are reported filled before the book moves
up by two ticks. -/
def longSession : List Event :=
  [futureBook 1 10200 50 10000 100,
   Event.OrderFilled 2 9800 150,
   futureBook 2 10400 50 10200 100]

/-- The rational volume-weighted mid `R` of the claim on the fair value: each price weighted
by the volume of the other side. -/
def weightedMid (bidPrice askPrice bidVolume askVolume : Nat) : ℚ :=
  ((bidPrice : ℚ) * askVolume + (askPrice : ℚ) * bidVolume) / ((bidVolume : ℚ) + askVolume)

/-- The fair value as the claim words it: `R` rounded half up to the nearest tick,
`100 * floor ((R + 50) / 100)`. -/
def roundHalfUpToTick (bidPrice askPrice bidVolume askVolume : Nat) : Int :=
  100 * ⌊(weightedMid bidPrice askPrice bidVolume askVolume + 50) / 100⌋

/-- The quotient of line 83 before half a tick is added: the `unsigned long` value of
`(bidPrices[0] * askVolumes[0] + askPrices[0] * bidVolumes[0]) / (bidVolumes[0] + askVolumes[0])`. -/
def weightedQuotient (bidPrice askPrice bidVolume askVolume : Nat) : Option Nat :=
  let total := (bidVolume + askVolume) % 2 ^ 64
  if total = 0 then none
  else
    some ((((bidPrice * askVolume) % 2 ^ 64 + (askPrice * bidVolume) % 2 ^ 64) % 2 ^ 64) / total)

/-- The total volume of the hedge orders of the given side among the commands. -/
def hedgeVolume (side : Side) : List Command → Int
  | [] => 0
  | Command.HedgeOrder _ sd _ v :: cs =>
    (if sd = side then (v : Int) else 0) + hedgeVolume side cs
  | _ :: cs => hedgeVolume side cs

/-- An event is a fill of one of the trader's orders. -/
def isOrderFilled : Event → Prop
  | Event.OrderFilled _ _ _ => True
  | _ => False

/-- The bookkeeping invariant of the two resting slots, the two membership sets and the id
counter. -/
def bookkeeping (s : AutoTrader) : Prop :=
  (s.mAskId ≠ 0 → s.mAskId ∈ s.mAsks) ∧ (s.mBidId ≠ 0 → s.mBidId ∈ s.mBids) ∧
    Disjoint s.mAsks s.mBids ∧ 0 ∉ s.mAsks ∧ 0 ∉ s.mBids ∧
    (∀ id ∈ s.mAsks, id < s.mNextMessageId) ∧ (∀ id ∈ s.mBids, id < s.mNextMessageId) ∧
    s.mAskId < s.mNextMessageId ∧ s.mBidId < s.mNextMessageId

/-- The hedge orders among the commands, in order. -/
def hedgeOrders : List Command → List Command
  | [] => []
  | Command.HedgeOrder id side price v :: cs => Command.HedgeOrder id side price v :: hedgeOrders cs
  | _ :: cs => hedgeOrders cs

/-- A session in which the exchange reports the resting ask as filled for `2 ^ 64 - 1` lots,
the largest `unsigned long`. -/
def wrapFillSession : List Event :=
  [futureBook 1 10200 50 10000 100, Event.OrderFilled 1 10400 18446744073709551615]

/-- A session in which the resting ask is reported filled for `2 ^ 32 + 100` lots, before a
book without a best bid. -/
def hugeFillSession : List Event :=
  [futureBook 1 10200 50 10000 100,
   Event.OrderFilled 1 10400 4294967396,
   futureBook 2 10200 50 0 100]

/-- The quoting state after 80 lots of the resting bid were filled: position 80. -/
def skewedState : AutoTrader :=
  { quotingState with mPosition := 80, mNextMessageId := 4 }

/-! ## Machine arithmetic inside its range -/

theorem wrapLong_of_range (x : Int) (h1 : -2 ^ 63 ≤ x) (h2 : x < 2 ^ 63) : wrapLong x = x := by
  simp only [wrapLong]
  omega

theorem wrapInt_of_range (x : Int) (h1 : -2 ^ 31 ≤ x) (h2 : x < 2 ^ 31) : wrapInt x = x := by
  simp only [wrapInt]
  omega

theorem quoteVolumes_of_int (p : Int) (hlow : -2 ^ 31 < p) (hhigh : p < 2 ^ 31) :
    quoteVolumes p
      = (if p < -50 then (50 + (-p - 50), 50 - (-p - 50))
         else if p > 50 then (50 - (p - 50), 50 + (p - 50)) else (50, 50)) := by
  simp only [quoteVolumes]
  by_cases h1 : p < -50
  · rw [if_pos h1, if_pos h1, wrapLong_of_range (-p) (by omega) (by omega),
      wrapLong_of_range (-p - 50) (by omega) (by omega),
      wrapInt_of_range (-p - 50) (by omega) (by omega),
      wrapInt_of_range (50 + (-p - 50)) (by omega) (by omega),
      wrapInt_of_range (50 - (-p - 50)) (by omega) (by omega)]
  · rw [if_neg h1, if_neg h1]
    by_cases h2 : p > 50
    · rw [if_pos h2, if_pos h2, wrapLong_of_range (p - 50) (by omega) (by omega),
        wrapInt_of_range (p - 50) (by omega) (by omega),
        wrapInt_of_range (50 - (p - 50)) (by omega) (by omega),
        wrapInt_of_range (50 + (p - 50)) (by omega) (by omega)]
    · rw [if_neg h2, if_neg h2]


/-! ## Bookkeeping of the id counter -/

theorem orderIds_append (a b : List Command) : orderIds (a ++ b) = orderIds a ++ orderIds b := by
  induction a with
  | nil => rfl
  | cons x xs ih => cases x <;> simp [orderIds, ih]

theorem refreshQuotes_orderIds (s : AutoTrader) (q : Quote) :
    orderIds (refreshQuotes s q).2
        = List.range' s.mNextMessageId (orderIds (refreshQuotes s q).2).length ∧
      (refreshQuotes s q).1.mNextMessageId
        = s.mNextMessageId + (orderIds (refreshQuotes s q).2).length := by
  simp only [refreshQuotes, storeVolumes, cancelAsk, cancelBid, insertAsk, insertBid,
    storeCancels]
  split_ifs <;> simp [orderIds, List.range']

theorem step_orderIds (limits : Limits) (s s1 : AutoTrader) (e : Event) (cmds : List Command)
    (h : step limits s e = some (s1, cmds)) :
    orderIds cmds = List.range' s.mNextMessageId (orderIds cmds).length ∧
      s1.mNextMessageId = s.mNextMessageId + (orderIds cmds).length := by
  cases e with
  | OrderBook i n ap av bp bv =>
    simp only [step, OrderBookMessageHandler] at h
    split_ifs at h with hi
    · cases hq : computeQuote s.mPosition ap av bp bv with
      | none => simp [hq] at h
      | some q =>
        simp only [hq, Option.some.injEq] at h
        have := refreshQuotes_orderIds s q
        rw [h] at this
        exact this
    · simp only [Option.some.injEq, Prod.mk.injEq] at h
      obtain ⟨rfl, rfl⟩ := h
      simp [orderIds]
  | TradeTicks i n ap av bp bv =>
    simp only [step, TradeTicksMessageHandler, Option.some.injEq, Prod.mk.injEq] at h
    obtain ⟨rfl, rfl⟩ := h
    simp [orderIds]
  | OrderFilled id p v =>
    simp only [step, OrderFilledMessageHandler, Option.some.injEq] at h
    split_ifs at h <;>
      (simp only [Prod.mk.injEq] at h; obtain ⟨rfl, rfl⟩ := h; simp [orderIds, List.range'])
  | OrderStatus id f r fees =>
    simp only [step, OrderStatusMessageHandler, Option.some.injEq] at h
    split_ifs at h <;>
      (simp only [Prod.mk.injEq] at h; obtain ⟨rfl, rfl⟩ := h; simp [orderIds])
  | ErrorMessage id msg =>
    simp only [step, ErrorMessageHandler, OrderStatusMessageHandler, Option.some.injEq] at h
    split_ifs at h <;>
      (simp only [Prod.mk.injEq] at h; obtain ⟨rfl, rfl⟩ := h; simp [orderIds])
  | HedgeFilled id p v =>
    simp only [step, HedgeFilledMessageHandler, Option.some.injEq, Prod.mk.injEq] at h
    obtain ⟨rfl, rfl⟩ := h
    simp [orderIds]

theorem run_orderIds (limits : Limits) (events : List Event) :
    ∀ (s s1 : AutoTrader) (cmds : List Command), run limits s events = some (s1, cmds) →
      orderIds cmds = List.range' s.mNextMessageId (orderIds cmds).length ∧
        s1.mNextMessageId = s.mNextMessageId + (orderIds cmds).length := by
  induction events with
  | nil =>
    intro s s1 cmds h
    simp only [run, Option.some.injEq, Prod.mk.injEq] at h
    obtain ⟨rfl, rfl⟩ := h
    simp [orderIds]
  | cons e es ih =>
    intro s s1 cmds h
    simp only [run] at h
    cases hs : step limits s e with
    | none => simp [hs] at h
    | some r =>
      obtain ⟨sa, ca⟩ := r
      simp only [hs] at h
      cases hr : run limits sa es with
      | none => simp [hr] at h
      | some r2 =>
        obtain ⟨sb, cb⟩ := r2
        simp only [hr, Option.some.injEq, Prod.mk.injEq] at h
        obtain ⟨rfl, rfl⟩ := h
        obtain ⟨h1, h2⟩ := step_orderIds limits s sa e ca hs
        obtain ⟨h3, h4⟩ := ih sa sb cb hr
        rw [orderIds_append, List.length_append]
        refine ⟨?_, by omega⟩
        rw [h2] at h3
        conv_lhs => rw [h1, h3]
        rw [List.range'_append_1, Nat.add_comm]

/-! ## C1: client order ids -/

/-- C1: for every sequence of events handled from the initial state with a first id of at
least 1, the client order ids of the emitted insert and hedge orders, in emission order, are
strictly increasing, hence pairwise distinct, and none is 0.  Quote and hedge orders draw on
one counter: the ids are exactly the consecutive values the counter went through. -/
theorem order_ids_strictly_increasing (limits : Limits) (nextId : Nat) (hid : 1 ≤ nextId)
    (events : List Event) (s : AutoTrader) (cmds : List Command)
    (hrun : run limits (initialState nextId) events = some (s, cmds)) :
    List.Pairwise (fun a b => a < b) (orderIds cmds) ∧ (orderIds cmds).Nodup ∧
      (∀ id ∈ orderIds cmds, id ≠ 0) ∧
      orderIds cmds = List.range' nextId (orderIds cmds).length ∧
      s.mNextMessageId = nextId + (orderIds cmds).length := by
  obtain ⟨h1, h2⟩ := run_orderIds limits events (initialState nextId) s cmds hrun
  have h0 : (initialState nextId).mNextMessageId = nextId := rfl
  rw [h0] at h1 h2
  refine ⟨?_, ?_, ?_, h1, h2⟩
  · rw [h1]
    exact List.pairwise_lt_range' _ _
  · rw [h1]
    exact List.nodup_range' _ _
  · intro id hmem
    rw [h1, List.mem_range'_1] at hmem
    omega

/-- C1 witness: the sample session (a quote, a fill with its hedge, a requote) emits the
order ids 1, 2, 3, 4, 5. -/
theorem order_ids_strictly_increasing_witness :
    1 ≤ 1 ∧
      (run sampleLimits (initialState 1) sampleSession).map (fun r => orderIds r.2)
        = some [1, 2, 3, 4, 5] ∧
      List.Pairwise (fun a b => a < b) [1, 2, 3, 4, 5] := by
  refine ⟨by decide, by decide, ?_⟩
  cases hrun : run sampleLimits (initialState 1) sampleSession with
  | none => exact absurd hrun (by decide)
  | some r =>
    have hids : orderIds r.2 = [1, 2, 3, 4, 5] := by
      have hd : (run sampleLimits (initialState 1) sampleSession).map (fun r => orderIds r.2)
          = some [1, 2, 3, 4, 5] := by decide
      rw [hrun] at hd
      simpa using hd
    have h := (order_ids_strictly_increasing sampleLimits 1 (by decide) sampleSession r.1 r.2
      hrun).1
    rw [hids] at h
    exact h

/-! ## C2: membership sets -/

theorem refreshQuotes_membership (s : AutoTrader) (q : Quote) :
    (refreshQuotes s q).1.mAsks.card ≤ s.mAsks.card + 1 ∧
      (refreshQuotes s q).1.mBids.card ≤ s.mBids.card + 1 ∧
      ((s.mAskId ≠ 0 → s.mAskId ∈ s.mAsks) →
        (refreshQuotes s q).1.mAskId ≠ 0 →
          (refreshQuotes s q).1.mAskId ∈ (refreshQuotes s q).1.mAsks) ∧
      ((s.mBidId ≠ 0 → s.mBidId ∈ s.mBids) →
        (refreshQuotes s q).1.mBidId ≠ 0 →
          (refreshQuotes s q).1.mBidId ∈ (refreshQuotes s q).1.mBids) := by
  have hc : ∀ (a : Nat) (t : Finset Nat), (insert a t).card ≤ t.card + 1 :=
    fun a t => Finset.card_insert_le a t
  simp only [refreshQuotes, storeVolumes, cancelAsk, cancelBid, insertAsk, insertBid,
    storeCancels]
  split_ifs <;> simp_all [askStale, bidStale]

theorem run_books_membership (limits : Limits) (events : List Event) :
    ∀ (s s1 : AutoTrader) (cmds : List Command), (∀ e ∈ events, isFutureBook e) →
      run limits s events = some (s1, cmds) →
      s1.mAsks.card ≤ s.mAsks.card + events.length ∧
        s1.mBids.card ≤ s.mBids.card + events.length ∧
        ((s.mAskId ≠ 0 → s.mAskId ∈ s.mAsks) → s1.mAskId ≠ 0 → s1.mAskId ∈ s1.mAsks) ∧
        ((s.mBidId ≠ 0 → s.mBidId ∈ s.mBids) → s1.mBidId ≠ 0 → s1.mBidId ∈ s1.mBids) := by
  induction events with
  | nil =>
    intro s s1 cmds _ h
    simp only [run, Option.some.injEq, Prod.mk.injEq] at h
    obtain ⟨rfl, rfl⟩ := h
    simp
  | cons e es ih =>
    intro s s1 cmds hall h
    have he : isFutureBook e := hall e (List.mem_cons_self _ _)
    have hes : ∀ x ∈ es, isFutureBook x := fun x hx => hall x (List.mem_cons_of_mem _ hx)
    simp only [run] at h
    cases hs : step limits s e with
    | none => simp [hs] at h
    | some r =>
      obtain ⟨sa, ca⟩ := r
      simp only [hs] at h
      cases hr : run limits sa es with
      | none => simp [hr] at h
      | some r2 =>
        obtain ⟨sb, cb⟩ := r2
        simp only [hr, Option.some.injEq, Prod.mk.injEq] at h
        obtain ⟨rfl, rfl⟩ := h
        obtain ⟨h3, h4, h5, h6⟩ := ih sa sb cb hes hr
        have hstep : sa.mAsks.card ≤ s.mAsks.card + 1 ∧ sa.mBids.card ≤ s.mBids.card + 1 ∧
            ((s.mAskId ≠ 0 → s.mAskId ∈ s.mAsks) → sa.mAskId ≠ 0 → sa.mAskId ∈ sa.mAsks) ∧
            ((s.mBidId ≠ 0 → s.mBidId ∈ s.mBids) → sa.mBidId ≠ 0 → sa.mBidId ∈ sa.mBids) := by
          cases e with
          | OrderBook i n ap av bp bv =>
            cases i with
            | FUTURE =>
              simp only [step, OrderBookMessageHandler, if_true] at hs
              cases hq : computeQuote s.mPosition ap av bp bv with
              | none => simp [hq] at hs
              | some q =>
                simp only [hq, Option.some.injEq] at hs
                have := refreshQuotes_membership s q
                rw [hs] at this
                exact this
            | ETF => exact absurd he (by simp [isFutureBook])
          | TradeTicks i n ap av bp bv => exact absurd he (by simp [isFutureBook])
          | OrderFilled id p v => exact absurd he (by simp [isFutureBook])
          | OrderStatus id f r fees => exact absurd he (by simp [isFutureBook])
          | ErrorMessage id msg => exact absurd he (by simp [isFutureBook])
          | HedgeFilled id p v => exact absurd he (by simp [isFutureBook])
        obtain ⟨g1, g2, g3, g4⟩ := hstep
        simp only [List.length_cons]
        exact ⟨by omega, by omega, fun h0 => h5 (g3 h0), fun h0 => h6 (g4 h0)⟩

/-- C2 (refuted as stated): after two future order books in a row, the second at other
prices, the ask membership set holds the two ids 1 and 3 and the bid membership set the two
ids 2 and 4: each set holds more than one id. -/
theorem membership_sets_hold_two_ids :
    (run sampleLimits (initialState 1) movingBooks).map
        (fun r => (r.1.mAsks.card, decide (1 ∈ r.1.mAsks ∧ 3 ∈ r.1.mAsks),
          r.1.mBids.card, decide (2 ∈ r.1.mBids ∧ 4 ∈ r.1.mBids)))
      = some (2, true, 2, true) := by
  decide

/-- C2 (amended): for every sequence of future order-book updates handled from the initial
state, each side has one slot for a resting order, and a non-zero resting id is a member of
its side's membership set; a membership set gains at most one id per update, so after `n`
updates it holds at most `n` ids. -/
theorem membership_sets_bounded_by_updates (limits : Limits) (nextId : Nat)
    (events : List Event) (hbooks : ∀ e ∈ events, isFutureBook e) (s : AutoTrader)
    (cmds : List Command) (hrun : run limits (initialState nextId) events = some (s, cmds)) :
    s.mAsks.card ≤ events.length ∧ s.mBids.card ≤ events.length ∧
      (s.mAskId ≠ 0 → s.mAskId ∈ s.mAsks) ∧ (s.mBidId ≠ 0 → s.mBidId ∈ s.mBids) := by
  obtain ⟨h1, h2, h3, h4⟩ :=
    run_books_membership limits events (initialState nextId) s cmds hbooks hrun
  have e1 : (initialState nextId).mAsks.card = 0 := rfl
  have e2 : (initialState nextId).mBids.card = 0 := rfl
  refine ⟨by omega, by omega, h3 ?_, h4 ?_⟩
  · intro h; exact absurd rfl h
  · intro h; exact absurd rfl h

/-- C2 witness: the two moving books leave two ids in each membership set, and the resting
ask id 3 and the resting bid id 4 are members. -/
theorem membership_sets_bounded_by_updates_witness :
    (∀ e ∈ movingBooks, isFutureBook e) ∧
      (run sampleLimits (initialState 1) movingBooks).map
          (fun r => (r.1.mAsks.card, r.1.mBids.card, r.1.mAskId, r.1.mBidId))
        = some (2, 2, 3, 4) ∧
      ∀ s cmds, run sampleLimits (initialState 1) movingBooks = some (s, cmds) →
        s.mAsks.card ≤ movingBooks.length ∧ s.mBids.card ≤ movingBooks.length ∧
          (s.mAskId ≠ 0 → s.mAskId ∈ s.mAsks) ∧ (s.mBidId ≠ 0 → s.mBidId ∈ s.mBids) := by
  have hb : ∀ e ∈ movingBooks, isFutureBook e := by
    intro e he
    simp only [movingBooks, List.mem_cons, List.mem_singleton, List.not_mem_nil, or_false] at he
    rcases he with rfl | rfl <;> simp [futureBook, isFutureBook]
  exact ⟨hb, by decide, fun s cmds hrun =>
    membership_sets_bounded_by_updates sampleLimits 1 movingBooks hb s cmds hrun⟩

/-! ## C3: fills and hedges -/

/-- C3 (refuted as stated): the resting ask 1 of the quoting state, which the first book of
a session reaches, is reported filled for `2 ^ 64 - 1` lots.  Line 158 subtracts
`(long)volume`, which is -1: the position goes up from 0 to 1 instead of down by the
volume, while the hedge BUY carries the full volume. -/
theorem huge_fill_raises_position :
    run sampleLimits (initialState 1) [futureBook 1 10200 50 10000 100]
        = some (quotingState,
            [Command.InsertOrder 1 Side.SELL 10400 50 Lifespan.GOOD_FOR_DAY,
             Command.InsertOrder 2 Side.BUY 9800 50 Lifespan.GOOD_FOR_DAY]) ∧
      1 ∈ quotingState.mAsks ∧ quotingState.mPosition = 0 ∧
      (OrderFilledMessageHandler sampleLimits quotingState 1 10400 18446744073709551615).1.mPosition
        = 1 ∧
      (OrderFilledMessageHandler sampleLimits quotingState 1 10400 18446744073709551615).2
        = [Command.HedgeOrder 3 Side.BUY 2147483600 18446744073709551615] := by
  decide

/-- C3 (amended): a fill of volume `v` for an id in the ask membership set emits exactly one
command, a hedge BUY of volume `v` at `MAXIMUM_ASK` rounded down to a multiple of the tick,
and, when `v` is below `2 ^ 63` and the new position fits a `long`, lowers the position by
exactly `v`; for an id that is in the bid set instead, the one command is a hedge SELL of
volume `v` at `MINIMUM_BID` and the position rises by exactly `v` under the same condition.
The fill price has no influence on the result. -/
theorem order_filled_position_and_hedge (limits : Limits) (s : AutoTrader)
    (id price v : Nat) :
    (id ∈ s.mAsks →
      (OrderFilledMessageHandler limits s id price v).2 =
        [Command.HedgeOrder s.mNextMessageId Side.BUY (limits.MAXIMUM_ASK / 100 * 100) v] ∧
      (v < 2 ^ 63 → -2 ^ 63 ≤ s.mPosition - (v : Int) → s.mPosition - (v : Int) < 2 ^ 63 →
        (OrderFilledMessageHandler limits s id price v).1.mPosition
          = s.mPosition - (v : Int))) ∧
    (id ∉ s.mAsks → id ∈ s.mBids →
      (OrderFilledMessageHandler limits s id price v).2 =
        [Command.HedgeOrder s.mNextMessageId Side.SELL limits.MINIMUM_BID v] ∧
      (v < 2 ^ 63 → -2 ^ 63 ≤ s.mPosition + (v : Int) → s.mPosition + (v : Int) < 2 ^ 63 →
        (OrderFilledMessageHandler limits s id price v).1.mPosition
          = s.mPosition + (v : Int))) ∧
    (∀ price2 : Nat, OrderFilledMessageHandler limits s id price2 v =
      OrderFilledMessageHandler limits s id price v) ∧
    (100 ∣ limits.MAXIMUM_ASK / 100 * 100 ∧
      limits.MAXIMUM_ASK / 100 * 100 ≤ limits.MAXIMUM_ASK ∧
      limits.MAXIMUM_ASK < limits.MAXIMUM_ASK / 100 * 100 + 100) := by
  refine ⟨?_, ?_, ?_, ?_, ?_, ?_⟩
  · intro h
    refine ⟨by simp [OrderFilledMessageHandler, h, TICK_SIZE_IN_CENTS], ?_⟩
    intro hv h1 h2
    simp only [OrderFilledMessageHandler, if_pos h]
    rw [wrapLong_of_range (v : Int) (by omega) (by omega), wrapLong_of_range _ h1 h2]
  · intro h h'
    refine ⟨by simp [OrderFilledMessageHandler, h, h'], ?_⟩
    intro hv h1 h2
    simp only [OrderFilledMessageHandler, if_neg h, if_pos h']
    rw [wrapLong_of_range (v : Int) (by omega) (by omega), wrapLong_of_range _ h1 h2]
  · intro price2
    rfl
  · exact Dvd.intro_left _ rfl
  · exact Nat.div_mul_le_self _ _
  · have := Nat.div_add_mod limits.MAXIMUM_ASK 100
    have := Nat.mod_lt limits.MAXIMUM_ASK (by decide : 100 > 0)
    omega

/-- C3 witness: ask order 1 of the quoting state is filled for 20 lots: the position drops
from 0 to -20 and the single command is a hedge BUY of 20 lots at 2147483600. -/
theorem order_filled_position_and_hedge_witness :
    (1 ∈ quotingState.mAsks) ∧ (20 : Nat) < 2 ^ 63 ∧
      (-2 ^ 63 ≤ quotingState.mPosition - ((20 : Nat) : Int) ∧
        quotingState.mPosition - ((20 : Nat) : Int) < 2 ^ 63) ∧
      (OrderFilledMessageHandler sampleLimits quotingState 1 10400 20).2 =
          [Command.HedgeOrder quotingState.mNextMessageId Side.BUY
            (sampleLimits.MAXIMUM_ASK / 100 * 100) 20] ∧
      (OrderFilledMessageHandler sampleLimits quotingState 1 10400 20).1.mPosition
          = quotingState.mPosition - ((20 : Nat) : Int) ∧
      quotingState.mPosition - ((20 : Nat) : Int) = -20 ∧
      sampleLimits.MAXIMUM_ASK / 100 * 100 = 2147483600 :=
  ⟨by decide, by decide, by decide,
   ((order_filled_position_and_hedge sampleLimits quotingState 1 10400 20).1 (by decide)).1,
   ((order_filled_position_and_hedge sampleLimits quotingState 1 10400 20).1 (by decide)).2
     (by decide) (by decide) (by decide),
   by decide, by decide⟩

/-! ## C4: a stale quote is cancelled and inserted again -/

/-- C4: let a future order book yield the quote `q`, in a state whose id counter is not 0.
If the ask side is resting at a price other than the non-zero new ask price, the update emits
for the ask side one cancel and, later in the same update, one SELL insert with the new
price, the ask target volume, the id taken from the counter and GOOD_FOR_DAY; afterwards the
ask side rests with that id at the new price.  The same holds for the bid side, whose insert
takes the next id after the one an ask insert of the same update used.  The commands of the
other side are the only other commands. -/
theorem stale_quote_cancel_then_insert (s : AutoTrader) (n : Nat)
    (askPrices askVolumes bidPrices bidVolumes : Levels) (q : Quote)
    (hq : computeQuote s.mPosition askPrices askVolumes bidPrices bidVolumes = some q)
    (hid : s.mNextMessageId ≠ 0) :
    (s.mAskId ≠ 0 → q.newAskPrice ≠ 0 → q.newAskPrice ≠ s.mAskPrice →
      (OrderBookMessageHandler s Instrument.FUTURE n askPrices askVolumes bidPrices
          bidVolumes).map (fun r => (r.2, r.1.mAskId, r.1.mAskPrice, decide (r.1.mAskId ≠ 0)))
        = some
          ([Command.CancelOrder s.askCancel] ++
            (if s.mBidId ≠ 0 ∧ q.newBidPrice ≠ 0 ∧ q.newBidPrice ≠ s.mBidPrice then
              [Command.CancelOrder s.bidCancel] else []) ++
            [Command.InsertOrder s.mNextMessageId Side.SELL q.newAskPrice q.new_ask_volume
              Lifespan.GOOD_FOR_DAY] ++
            (if q.newBidPrice ≠ 0 ∧ (s.mBidId = 0 ∨ q.newBidPrice ≠ s.mBidPrice) then
              [Command.InsertOrder (s.mNextMessageId + 1) Side.BUY q.newBidPrice
                q.new_bid_volume Lifespan.GOOD_FOR_DAY] else []),
           s.mNextMessageId, q.newAskPrice, true)) ∧
    (s.mBidId ≠ 0 → q.newBidPrice ≠ 0 → q.newBidPrice ≠ s.mBidPrice →
      (OrderBookMessageHandler s Instrument.FUTURE n askPrices askVolumes bidPrices
          bidVolumes).map (fun r => (r.2, r.1.mBidId, r.1.mBidPrice, decide (r.1.mBidId ≠ 0)))
        = some
          ((if s.mAskId ≠ 0 ∧ q.newAskPrice ≠ 0 ∧ q.newAskPrice ≠ s.mAskPrice then
              [Command.CancelOrder s.askCancel] else []) ++
            [Command.CancelOrder s.bidCancel] ++
            (if q.newAskPrice ≠ 0 ∧ (s.mAskId = 0 ∨ q.newAskPrice ≠ s.mAskPrice) then
              [Command.InsertOrder s.mNextMessageId Side.SELL q.newAskPrice
                q.new_ask_volume Lifespan.GOOD_FOR_DAY] else []) ++
            [Command.InsertOrder
              (if q.newAskPrice ≠ 0 ∧ (s.mAskId = 0 ∨ q.newAskPrice ≠ s.mAskPrice) then
                s.mNextMessageId + 1 else s.mNextMessageId)
              Side.BUY q.newBidPrice q.new_bid_volume Lifespan.GOOD_FOR_DAY],
           (if q.newAskPrice ≠ 0 ∧ (s.mAskId = 0 ∨ q.newAskPrice ≠ s.mAskPrice) then
              s.mNextMessageId + 1 else s.mNextMessageId),
           q.newBidPrice, true)) := by
  constructor
  · intro h1 h2 h3
    simp only [OrderBookMessageHandler, if_true, hq, Option.map_some', refreshQuotes,
      storeVolumes, cancelAsk, cancelBid, insertAsk, insertBid, storeCancels, askStale,
      bidStale]
    split_ifs <;> simp_all
  · intro h1 h2 h3
    simp only [OrderBookMessageHandler, if_true, hq, Option.map_some', refreshQuotes,
      storeVolumes, cancelAsk, cancelBid, insertAsk, insertBid, storeCancels, askStale,
      bidStale]
    split_ifs <;> simp_all

/-- C4 witness: in the quoting state (ask 1 at 10400, bid 2 at 9800, counter 3) the book two
ticks higher yields 10600 and 10000: both sides are cancelled and inserted again, the ask
with id 3 and the bid with id 4. -/
theorem stale_quote_cancel_then_insert_witness :
    computeQuote quotingState.mPosition (fun _ => 10400) (fun _ => 50) (fun _ => 10200)
        (fun _ => 100) = some movedQuote ∧
      quotingState.mNextMessageId ≠ 0 ∧ quotingState.mAskId ≠ 0 ∧
      movedQuote.newAskPrice ≠ 0 ∧ movedQuote.newAskPrice ≠ quotingState.mAskPrice ∧
      (OrderBookMessageHandler quotingState Instrument.FUTURE 2 (fun _ => 10400)
          (fun _ => 50) (fun _ => 10200) (fun _ => 100)).map
          (fun r => (r.2, r.1.mAskId, r.1.mAskPrice, decide (r.1.mAskId ≠ 0)))
        = some
          ([Command.CancelOrder 1, Command.CancelOrder 2,
            Command.InsertOrder 3 Side.SELL 10600 50 Lifespan.GOOD_FOR_DAY,
            Command.InsertOrder 4 Side.BUY 10000 50 Lifespan.GOOD_FOR_DAY],
           3, 10600, true) :=
  ⟨by decide, by decide, by decide, by decide, by decide,
   ((stale_quote_cancel_then_insert quotingState 2 (fun _ => 10400) (fun _ => 50)
      (fun _ => 10200) (fun _ => 100) movedQuote (by decide) (by decide)).1
      (by decide) (by decide) (by decide)).trans (by decide)⟩

/-! ## C5: the cancel snapshot -/

theorem refreshQuotes_snapshotCurrent (s : AutoTrader) (q : Quote) :
    snapshotCurrent (refreshQuotes s q).1 := by
  simp [snapshotCurrent, refreshQuotes, storeCancels]

theorem step_snapshotCurrent (limits : Limits) (s s1 : AutoTrader) (e : Event)
    (cmds : List Command) (h : step limits s e = some (s1, cmds)) (hs : snapshotCurrent s) :
    snapshotCurrent s1 := by
  cases e with
  | OrderBook i n ap av bp bv =>
    simp only [step, OrderBookMessageHandler] at h
    split_ifs at h with hi
    · cases hq : computeQuote s.mPosition ap av bp bv with
      | none => simp [hq] at h
      | some q =>
        simp only [hq, Option.some.injEq] at h
        have := refreshQuotes_snapshotCurrent s q
        rw [h] at this
        exact this
    · simp only [Option.some.injEq, Prod.mk.injEq] at h
      obtain ⟨rfl, rfl⟩ := h
      exact hs
  | TradeTicks i n ap av bp bv =>
    simp only [step, TradeTicksMessageHandler, Option.some.injEq, Prod.mk.injEq] at h
    obtain ⟨rfl, rfl⟩ := h
    exact hs
  | OrderFilled id p v =>
    simp only [step, OrderFilledMessageHandler, Option.some.injEq] at h
    split_ifs at h <;>
      (simp only [Prod.mk.injEq] at h; obtain ⟨rfl, rfl⟩ := h; exact hs)
  | OrderStatus id f r fees =>
    simp only [step, OrderStatusMessageHandler, Option.some.injEq] at h
    obtain ⟨ha, hb⟩ := hs
    split_ifs at h <;>
      (simp only [Prod.mk.injEq] at h; obtain ⟨rfl, rfl⟩ := h
       simp_all [snapshotCurrent])
  | ErrorMessage id msg =>
    simp only [step, ErrorMessageHandler, OrderStatusMessageHandler, Option.some.injEq] at h
    obtain ⟨ha, hb⟩ := hs
    split_ifs at h <;>
      (simp only [Prod.mk.injEq] at h; obtain ⟨rfl, rfl⟩ := h
       simp_all [snapshotCurrent])
  | HedgeFilled id p v =>
    simp only [step, HedgeFilledMessageHandler, Option.some.injEq, Prod.mk.injEq] at h
    obtain ⟨rfl, rfl⟩ := h
    exact hs

theorem run_snapshotCurrent (limits : Limits) (events : List Event) :
    ∀ (s s1 : AutoTrader) (cmds : List Command), run limits s events = some (s1, cmds) →
      snapshotCurrent s → snapshotCurrent s1 := by
  induction events with
  | nil =>
    intro s s1 cmds h hs
    simp only [run, Option.some.injEq, Prod.mk.injEq] at h
    obtain ⟨rfl, rfl⟩ := h
    exact hs
  | cons e es ih =>
    intro s s1 cmds h hs
    simp only [run] at h
    cases hstep : step limits s e with
    | none => simp [hstep] at h
    | some r =>
      obtain ⟨sa, ca⟩ := r
      simp only [hstep] at h
      cases hr : run limits sa es with
      | none => simp [hr] at h
      | some r2 =>
        obtain ⟨sb, cb⟩ := r2
        simp only [hr, Option.some.injEq, Prod.mk.injEq] at h
        obtain ⟨rfl, rfl⟩ := h
        exact ih sa sb cb hr (step_snapshotCurrent limits s sa e ca hstep hs)

/-- C5: in every state reached from the initial state by a sequence of events, a future
order book that yields the quote `q` emits its cancels with the ids of the orders resting at
that moment: the cancel of the ask side, sent when the ask guard holds, carries `mAskId`,
the cancel of the bid side carries `mBidId`, and these are the only cancels.  The stored
snapshots `askCancel` and `bidCancel` that are sent hold exactly these ids, which are not
0. -/
theorem cancel_carries_resting_id (limits : Limits) (nextId : Nat) (events : List Event)
    (s : AutoTrader) (cmds : List Command)
    (hrun : run limits (initialState nextId) events = some (s, cmds)) (n : Nat)
    (askPrices askVolumes bidPrices bidVolumes : Levels) (q : Quote)
    (hq : computeQuote s.mPosition askPrices askVolumes bidPrices bidVolumes = some q) :
    (OrderBookMessageHandler s Instrument.FUTURE n askPrices askVolumes bidPrices
        bidVolumes).map (fun r => cancelIds r.2)
      = some
        ((if s.mAskId ≠ 0 ∧ q.newAskPrice ≠ 0 ∧ q.newAskPrice ≠ s.mAskPrice then [s.mAskId]
          else []) ++
         (if s.mBidId ≠ 0 ∧ q.newBidPrice ≠ 0 ∧ q.newBidPrice ≠ s.mBidPrice then [s.mBidId]
          else [])) ∧
    (s.mAskId ≠ 0 → s.askCancel = s.mAskId) ∧ (s.mBidId ≠ 0 → s.bidCancel = s.mBidId) ∧
    ∀ r, OrderBookMessageHandler s Instrument.FUTURE n askPrices askVolumes bidPrices
        bidVolumes = some r → ∀ id ∈ cancelIds r.2, id ≠ 0 := by
  have hinv : snapshotCurrent s :=
    run_snapshotCurrent limits events (initialState nextId) s cmds hrun
      ⟨fun h => absurd rfl h, fun h => absurd rfl h⟩
  obtain ⟨ha, hb⟩ := hinv
  have key : cancelIds (refreshQuotes s q).2
      = (if s.mAskId ≠ 0 ∧ q.newAskPrice ≠ 0 ∧ q.newAskPrice ≠ s.mAskPrice then [s.mAskId]
          else []) ++
        (if s.mBidId ≠ 0 ∧ q.newBidPrice ≠ 0 ∧ q.newBidPrice ≠ s.mBidPrice then [s.mBidId]
          else []) := by
    simp only [refreshQuotes, storeVolumes, cancelAsk, cancelBid, insertAsk, insertBid,
      storeCancels, askStale, bidStale]
    split_ifs <;> simp_all [cancelIds]
  refine ⟨?_, ha, hb, ?_⟩
  · simp only [OrderBookMessageHandler, if_true, hq, Option.map_some', key]
  · intro r hr id hmem
    simp only [OrderBookMessageHandler, if_true, hq, Option.some.injEq] at hr
    rw [← hr, key] at hmem
    split_ifs at hmem with h1 h2 h2 <;>
      simp only [List.append_nil, List.nil_append, List.singleton_append, List.mem_cons,
        List.mem_singleton, List.not_mem_nil, or_false] at hmem
    · rcases hmem with rfl | rfl
      · exact h1.1
      · exact h2.1
    · rw [hmem]; exact h1.1
    · rw [hmem]; exact h2.1

/-- C5 witness: the quoting state is reached by the first book of a session, and the book
two ticks higher then sends the cancels 1 and 2, the ids resting on the ask and bid side. -/
theorem cancel_carries_resting_id_witness :
    run sampleLimits (initialState 1) [futureBook 1 10200 50 10000 100]
        = some (quotingState,
            [Command.InsertOrder 1 Side.SELL 10400 50 Lifespan.GOOD_FOR_DAY,
             Command.InsertOrder 2 Side.BUY 9800 50 Lifespan.GOOD_FOR_DAY]) ∧
      computeQuote quotingState.mPosition (fun _ => 10400) (fun _ => 50) (fun _ => 10200)
        (fun _ => 100) = some movedQuote ∧
      (OrderBookMessageHandler quotingState Instrument.FUTURE 2 (fun _ => 10400)
          (fun _ => 50) (fun _ => 10200) (fun _ => 100)).map (fun r => cancelIds r.2)
        = some [quotingState.mAskId, quotingState.mBidId] :=
  ⟨by decide, by decide,
   ((cancel_carries_resting_id sampleLimits 1 [futureBook 1 10200 50 10000 100] quotingState
      [Command.InsertOrder 1 Side.SELL 10400 50 Lifespan.GOOD_FOR_DAY,
       Command.InsertOrder 2 Side.BUY 9800 50 Lifespan.GOOD_FOR_DAY]
      (by decide) 2 (fun _ => 10400) (fun _ => 50) (fun _ => 10200) (fun _ => 100) movedQuote
      (by decide)).1).trans (by decide)⟩

/-! ## C6: an unchanged price sends nothing -/

theorem refreshQuotes_position (s : AutoTrader) (q : Quote) :
    (refreshQuotes s q).1.mPosition = s.mPosition := by
  simp only [refreshQuotes, storeVolumes, cancelAsk, cancelBid, insertAsk, insertBid,
    storeCancels]
  split_ifs <;> rfl

theorem refreshQuotes_settled (s : AutoTrader) (q : Quote) (hid : s.mNextMessageId ≠ 0) :
    (refreshQuotes s q).1.theo = q.theo ∧
      (refreshQuotes s q).1.bid_volume = q.new_bid_volume ∧
      (refreshQuotes s q).1.ask_volume = q.new_ask_volume ∧
      (refreshQuotes s q).1.bidCancel = (refreshQuotes s q).1.mBidId ∧
      (refreshQuotes s q).1.askCancel = (refreshQuotes s q).1.mAskId ∧
      (q.newAskPrice ≠ 0 → (refreshQuotes s q).1.mAskId ≠ 0 ∧
        (refreshQuotes s q).1.mAskPrice = q.newAskPrice) ∧
      (q.newBidPrice ≠ 0 → (refreshQuotes s q).1.mBidId ≠ 0 ∧
        (refreshQuotes s q).1.mBidPrice = q.newBidPrice) := by
  simp only [refreshQuotes, storeVolumes, cancelAsk, cancelBid, insertAsk, insertBid,
    storeCancels, askStale, bidStale]
  split_ifs <;> simp_all <;> omega

theorem refreshQuotes_fixed (t : AutoTrader) (q : Quote) (h1 : t.theo = q.theo)
    (h2 : t.bid_volume = q.new_bid_volume) (h3 : t.ask_volume = q.new_ask_volume)
    (h4 : t.bidCancel = t.mBidId) (h5 : t.askCancel = t.mAskId)
    (h6 : q.newAskPrice ≠ 0 → t.mAskId ≠ 0 ∧ t.mAskPrice = q.newAskPrice)
    (h7 : q.newBidPrice ≠ 0 → t.mBidId ≠ 0 ∧ t.mBidPrice = q.newBidPrice) :
    refreshQuotes t q = (t, []) := by
  have e0 : storeVolumes t q = t := by
    cases t
    simp only [storeVolumes] at *
    simp [h1, h2, h3]
  have e1 : cancelAsk t q = (t, []) := by
    simp only [cancelAsk, askStale]
    by_cases hp : q.newAskPrice = 0
    · simp [hp]
    · simp [(h6 hp).2]
  have e2 : cancelBid t q = (t, []) := by
    simp only [cancelBid, bidStale]
    by_cases hp : q.newBidPrice = 0
    · simp [hp]
    · simp [(h7 hp).2]
  have e3 : insertAsk t q = (t, []) := by
    simp only [insertAsk]
    by_cases hp : q.newAskPrice = 0
    · simp [hp]
    · simp [(h6 hp).1]
  have e4 : insertBid t q = (t, []) := by
    simp only [insertBid]
    by_cases hp : q.newBidPrice = 0
    · simp [hp]
    · simp [(h7 hp).1]
  have e5 : storeCancels t = t := by
    cases t
    simp only [storeCancels] at *
    simp [h4, h5]
  simp only [refreshQuotes, e0, e1, e2, e3, e4, e5, List.append_nil]

theorem refreshQuotes_twice (s : AutoTrader) (q : Quote) (hid : s.mNextMessageId ≠ 0) :
    refreshQuotes (refreshQuotes s q).1 q = ((refreshQuotes s q).1, []) := by
  obtain ⟨h1, h2, h3, h4, h5, h6, h7⟩ := refreshQuotes_settled s q hid
  exact refreshQuotes_fixed _ q h1 h2 h3 h4 h5 h6 h7

/-- C6: let a future order book yield the quote `q`.  If the ask side is resting at exactly
the new ask price, the update emits no ask command (the commands are those of the bid side
alone) and leaves the resting ask id and price as they were; likewise for the bid side.
Consequently, in a state whose id counter is not 0, handling the same order book a second
time right after the first emits no command and leaves the whole state unchanged. -/
theorem unchanged_price_emits_nothing (s : AutoTrader) (n : Nat)
    (askPrices askVolumes bidPrices bidVolumes : Levels) (q : Quote)
    (hq : computeQuote s.mPosition askPrices askVolumes bidPrices bidVolumes = some q) :
    (s.mAskId ≠ 0 → s.mAskPrice = q.newAskPrice →
      (OrderBookMessageHandler s Instrument.FUTURE n askPrices askVolumes bidPrices
          bidVolumes).map (fun r => (r.2, r.1.mAskId, r.1.mAskPrice))
        = some
          ((if s.mBidId ≠ 0 ∧ q.newBidPrice ≠ 0 ∧ q.newBidPrice ≠ s.mBidPrice then
              [Command.CancelOrder s.bidCancel] else []) ++
            (if q.newBidPrice ≠ 0 ∧ (s.mBidId = 0 ∨ q.newBidPrice ≠ s.mBidPrice) then
              [Command.InsertOrder s.mNextMessageId Side.BUY q.newBidPrice q.new_bid_volume
                Lifespan.GOOD_FOR_DAY] else []),
           s.mAskId, s.mAskPrice)) ∧
    (s.mBidId ≠ 0 → s.mBidPrice = q.newBidPrice →
      (OrderBookMessageHandler s Instrument.FUTURE n askPrices askVolumes bidPrices
          bidVolumes).map (fun r => (r.2, r.1.mBidId, r.1.mBidPrice))
        = some
          ((if s.mAskId ≠ 0 ∧ q.newAskPrice ≠ 0 ∧ q.newAskPrice ≠ s.mAskPrice then
              [Command.CancelOrder s.askCancel] else []) ++
            (if q.newAskPrice ≠ 0 ∧ (s.mAskId = 0 ∨ q.newAskPrice ≠ s.mAskPrice) then
              [Command.InsertOrder s.mNextMessageId Side.SELL q.newAskPrice q.new_ask_volume
                Lifespan.GOOD_FOR_DAY] else []),
           s.mBidId, s.mBidPrice)) ∧
    (s.mNextMessageId ≠ 0 →
      ∀ r, OrderBookMessageHandler s Instrument.FUTURE n askPrices askVolumes bidPrices
          bidVolumes = some r →
        OrderBookMessageHandler r.1 Instrument.FUTURE n askPrices askVolumes bidPrices
          bidVolumes = some (r.1, [])) := by
  refine ⟨?_, ?_, ?_⟩
  · intro h1 h2
    simp only [OrderBookMessageHandler, if_true, hq, Option.map_some', refreshQuotes,
      storeVolumes, cancelAsk, cancelBid, insertAsk, insertBid, storeCancels, askStale,
      bidStale]
    split_ifs <;> simp_all
  · intro h1 h2
    simp only [OrderBookMessageHandler, if_true, hq, Option.map_some', refreshQuotes,
      storeVolumes, cancelAsk, cancelBid, insertAsk, insertBid, storeCancels, askStale,
      bidStale]
    split_ifs <;> simp_all
  · intro hid r hr
    simp only [OrderBookMessageHandler, if_true, hq, Option.some.injEq] at hr
    subst hr
    simp only [OrderBookMessageHandler, if_true, refreshQuotes_position, hq,
      refreshQuotes_twice s q hid]

/-- C6 witness: the quoting state rests at 10400 and 9800, the prices the first book of the
session yields again: handling that book once more sends nothing and changes nothing. -/
theorem unchanged_price_emits_nothing_witness :
    computeQuote quotingState.mPosition (fun _ => 10200) (fun _ => 50) (fun _ => 10000)
        (fun _ => 100)
        = some { theo := 10100, newAskPrice := 10400, newBidPrice := 9800,
                 new_bid_volume := 50, new_ask_volume := 50 } ∧
      quotingState.mAskId ≠ 0 ∧ quotingState.mAskPrice = 10400 ∧
      quotingState.mNextMessageId ≠ 0 ∧
      (OrderBookMessageHandler quotingState Instrument.FUTURE 2 (fun _ => 10200)
          (fun _ => 50) (fun _ => 10000) (fun _ => 100)).map
          (fun r => (r.2, r.1.mAskId, r.1.mAskPrice))
        = some ([], 1, 10400) ∧
      OrderBookMessageHandler quotingState Instrument.FUTURE 2 (fun _ => 10200)
          (fun _ => 50) (fun _ => 10000) (fun _ => 100) = some (quotingState, []) :=
  ⟨by decide, by decide, by decide, by decide,
   ((unchanged_price_emits_nothing quotingState 2 (fun _ => 10200) (fun _ => 50)
      (fun _ => 10000) (fun _ => 100)
      { theo := 10100, newAskPrice := 10400, newBidPrice := 9800, new_bid_volume := 50,
        new_ask_volume := 50 } (by decide)).1 (by decide) (by decide)).trans (by decide),
   by decide⟩

/-! ## C7: an empty book -/

/-- C7 (the code at the claim's input): a future order book whose best bid volume and best
ask volume are both 0 makes line 83 divide by `bidVolumes[0] + askVolumes[0] = 0`.  The
handler has no branch for this case: its behaviour is undefined, instead of returning with
the state unchanged and no command. -/
theorem empty_book_divides_by_zero (s : AutoTrader) (n : Nat)
    (askPrices askVolumes bidPrices bidVolumes : Levels)
    (hbid : bidVolumes 0 = 0) (hask : askVolumes 0 = 0) :
    fairValue (bidPrices 0) (askPrices 0) (bidVolumes 0) (askVolumes 0) = none ∧
      OrderBookMessageHandler s Instrument.FUTURE n askPrices askVolumes bidPrices bidVolumes
        = none := by
  have h : fairValue (bidPrices 0) (askPrices 0) (bidVolumes 0) (askVolumes 0) = none := by
    simp [fairValue, hbid, hask]
  exact ⟨h, by simp [OrderBookMessageHandler, computeQuote, h]⟩

/-- C7 witness: the first order book of a session, with prices 10200 and 10000 and no volume
on either side. -/
theorem empty_book_divides_by_zero_witness :
    ((fun _ => 0) : Levels) 0 = 0 ∧
      OrderBookMessageHandler (initialState 1) Instrument.FUTURE 1 (fun _ => 10200)
        (fun _ => 0) (fun _ => 10000) (fun _ => 0) = none :=
  ⟨rfl, (empty_book_divides_by_zero (initialState 1) 1 (fun _ => 10200) (fun _ => 0)
    (fun _ => 10000) (fun _ => 0) rfl rfl).2⟩

/-! ## C8: the fair value is stored in a `float` -/

theorem roundToFloat_small (n : Nat) (h : n < 2 ^ 24) : roundToFloat n = n := by
  have e : float32Shift n n = 0 := by
    cases n with
    | zero => rfl
    | succ k =>
      simp only [float32Shift]
      rw [if_pos h]
  simp [roundToFloat, e, Nat.mod_one]

theorem floatOfInt_small (n : Nat) (h : n < 2 ^ 24) : floatOfInt (n : Int) = (n : Int) := by
  simp [floatOfInt, roundToFloat_small n h]

theorem roundHalfUpToTick_eq (bidPrice askPrice bidVolume askVolume : Nat)
    (hpos : 0 < bidVolume + askVolume) :
    roundHalfUpToTick bidPrice askPrice bidVolume askVolume
      = (((bidPrice * askVolume + askPrice * bidVolume) / (bidVolume + askVolume) + 50)
          / 100 * 100 : Nat) := by
  have hT : ((bidVolume : ℚ) + askVolume) ≠ 0 := by
    have : (0 : ℚ) < ((bidVolume + askVolume : Nat) : ℚ) := by exact_mod_cast hpos
    push_cast at this
    exact ne_of_gt this
  have e : (weightedMid bidPrice askPrice bidVolume askVolume + 50) / 100
      = (((bidPrice * askVolume + askPrice * bidVolume + 50 * (bidVolume + askVolume) : Nat)
            : Int) : ℚ) / ((100 * (bidVolume + askVolume) : Nat) : ℚ) := by
    simp only [weightedMid]
    push_cast
    field_simp
    left
    ring
  have d : (bidPrice * askVolume + askPrice * bidVolume + 50 * (bidVolume + askVolume))
        / (100 * (bidVolume + askVolume))
      = ((bidPrice * askVolume + askPrice * bidVolume) / (bidVolume + askVolume) + 50)
          / 100 := by
    rw [Nat.mul_comm 100, ← Nat.div_div_eq_div_mul, Nat.add_mul_div_right _ _ hpos]
  rw [roundHalfUpToTick, e, Rat.floor_intCast_div_natCast]
  push_cast
  rw [mul_comm]
  congr 1
  have := congrArg (fun x : Nat => (x : Int)) d
  push_cast at this
  exact this

/-- The part of the claim on the fair value that the code does meet: when the products and
sums of line 83 stay below `2 ^ 63` and the result is below `2 ^ 24`, the stored fair value
is `R` rounded half up to the tick, a multiple of 100. -/
theorem fairValue_rounds_half_up (bidPrice askPrice bidVolume askVolume : Nat)
    (hpos : 0 < bidVolume + askVolume) (hT : bidVolume + askVolume < 2 ^ 64)
    (hW : bidPrice * askVolume + askPrice * bidVolume < 2 ^ 63) :
    fairValue bidPrice askPrice bidVolume askVolume
        = some (((bidPrice * askVolume + askPrice * bidVolume) / (bidVolume + askVolume) + 50)
            / 100 * 100) ∧
      ((((bidPrice * askVolume + askPrice * bidVolume) / (bidVolume + askVolume) + 50)
            / 100 * 100 : Nat) : Int)
        = roundHalfUpToTick bidPrice askPrice bidVolume askVolume ∧
      (((bidPrice * askVolume + askPrice * bidVolume) / (bidVolume + askVolume) + 50)
            / 100 * 100 < 2 ^ 24 →
        floatOfInt ((((bidPrice * askVolume + askPrice * bidVolume)
            / (bidVolume + askVolume) + 50) / 100 * 100 : Nat) : Int)
          = roundHalfUpToTick bidPrice askPrice bidVolume askVolume) := by
  have h1 : bidPrice * askVolume < 2 ^ 64 := by omega
  have h2 : askPrice * bidVolume < 2 ^ 64 := by omega
  have h3 : (bidPrice * askVolume + askPrice * bidVolume) / (bidVolume + askVolume)
      ≤ bidPrice * askVolume + askPrice * bidVolume := Nat.div_le_self _ _
  refine ⟨?_, (roundHalfUpToTick_eq _ _ _ _ hpos).symm, ?_⟩
  · simp only [fairValue]
    rw [Nat.mod_eq_of_lt hT, Nat.mod_eq_of_lt h1, Nat.mod_eq_of_lt h2,
      Nat.mod_eq_of_lt (by omega : bidPrice * askVolume + askPrice * bidVolume < 2 ^ 64),
      Nat.mod_eq_of_lt (by omega :
        (bidPrice * askVolume + askPrice * bidVolume) / (bidVolume + askVolume) + 50 < 2 ^ 64)]
    simp [Nat.pos_iff_ne_zero.mp hpos]
  · intro hlt
    rw [floatOfInt_small _ hlt, roundHalfUpToTick_eq _ _ _ _ hpos]

/-- C8 (the code at a failing input): with both best prices at 134217900 and one lot on each
side, `R` is 134217900 and its rounding to the tick is 134217900, which line 83 computes in
`unsigned long`.  The global `theo` is a `float`, which has no such value: it holds
134217904, which is not a multiple of 100 and not the value the claim gives. -/
theorem fair_value_not_tick_multiple :
    fairValue 134217900 134217900 1 1 = some 134217900 ∧
      roundHalfUpToTick 134217900 134217900 1 1 = 134217900 ∧
      (OrderBookMessageHandler (initialState 1) Instrument.FUTURE 1 (fun _ => 134217900)
          (fun _ => 1) (fun _ => 134217900) (fun _ => 1)).map (fun r => r.1.theo)
        = some 134217904 ∧
      ¬ ((100 : Int) ∣ 134217904) := by
  refine ⟨by decide, ?_, by decide, by decide⟩
  simp only [roundHalfUpToTick, weightedMid]
  norm_num

/-! ## Sizes of a computed quote -/

theorem computeQuote_volumes (p : Int) (askPrices askVolumes bidPrices bidVolumes : Levels)
    (q : Quote) (hq : computeQuote p askPrices askVolumes bidPrices bidVolumes = some q) :
    q.new_bid_volume = (quoteVolumes p).1 ∧ q.new_ask_volume = (quoteVolumes p).2 := by
  simp only [computeQuote] at hq
  split at hq
  · exact absurd hq (by simp)
  · split at hq
    · exact absurd hq (by simp)
    · split at hq
      · exact absurd hq (by simp)
      · simp only [Option.some.injEq] at hq
        subst hq
        exact ⟨rfl, rfl⟩

/-! ## C10: sizes outside the position limit -/

theorem refreshQuotes_insertVolumes (s : AutoTrader) (q : Quote) :
    ∀ v ∈ insertVolumes (refreshQuotes s q).2, v = q.new_ask_volume ∨ v = q.new_bid_volume := by
  simp only [refreshQuotes, storeVolumes, cancelAsk, cancelBid, insertAsk, insertBid,
    storeCancels]
  split_ifs <;> simp [insertVolumes]

/-- C10 (refuted as stated): once 150 lots of the resting bid are reported filled, the
position is 150 and the next future order book inserts a BUY order whose volume is
`50 - 100 = -50`: the size is not floored at zero and the insert is not suppressed. -/
theorem insert_volume_negative :
    (run sampleLimits (initialState 1) longSession).map
        (fun r => (r.1.mPosition, r.2.drop 6, insertVolumes r.2))
      = some (150, [Command.InsertOrder 5 Side.BUY 9700 (-50) Lifespan.GOOD_FOR_DAY],
          [50, 50, 150, -50]) := by
  decide

/-- C10 (amended): for every position between -100 and 100 and every order-book update, the
volume of each emitted insert order is not negative; it is at most 100. -/
theorem insert_volume_within_limit (s : AutoTrader) (instrument : Instrument) (n : Nat)
    (askPrices askVolumes bidPrices bidVolumes : Levels) (r : AutoTrader × List Command)
    (hlow : -100 ≤ s.mPosition) (hhigh : s.mPosition ≤ 100)
    (h : OrderBookMessageHandler s instrument n askPrices askVolumes bidPrices bidVolumes
      = some r) :
    ∀ v ∈ insertVolumes r.2, 0 ≤ v ∧ v ≤ 100 := by
  intro v hv
  simp only [OrderBookMessageHandler] at h
  split_ifs at h with hi
  · cases hq : computeQuote s.mPosition askPrices askVolumes bidPrices bidVolumes with
    | none => simp [hq] at h
    | some q =>
      simp only [hq, Option.some.injEq] at h
      subst h
      obtain ⟨hb, ha⟩ := computeQuote_volumes _ _ _ _ _ q hq
      have hvol : (0 ≤ (quoteVolumes s.mPosition).1 ∧ (quoteVolumes s.mPosition).1 ≤ 100) ∧
          (0 ≤ (quoteVolumes s.mPosition).2 ∧ (quoteVolumes s.mPosition).2 ≤ 100) := by
        rw [quoteVolumes_of_int s.mPosition (by omega) (by omega)]
        split_ifs <;> (simp only []; omega)
      rcases refreshQuotes_insertVolumes s q v hv with hv1 | hv1
      · rw [hv1, ha]; exact hvol.2
      · rw [hv1, hb]; exact hvol.1
  · simp only [Option.some.injEq] at h
    subst h
    simp [insertVolumes] at hv

/-- C10 witness: at position 0 the first book of a session inserts 50 lots on each side. -/
theorem insert_volume_within_limit_witness :
    (-100 : Int) ≤ (initialState 1).mPosition ∧ (initialState 1).mPosition ≤ 100 ∧
      OrderBookMessageHandler (initialState 1) Instrument.FUTURE 1 (fun _ => 10200)
          (fun _ => 50) (fun _ => 10000) (fun _ => 100)
        = some (quotingState,
            [Command.InsertOrder 1 Side.SELL 10400 50 Lifespan.GOOD_FOR_DAY,
             Command.InsertOrder 2 Side.BUY 9800 50 Lifespan.GOOD_FOR_DAY]) ∧
      ∀ v ∈ insertVolumes
          [Command.InsertOrder 1 Side.SELL 10400 50 Lifespan.GOOD_FOR_DAY,
           Command.InsertOrder 2 Side.BUY 9800 50 Lifespan.GOOD_FOR_DAY], 0 ≤ v ∧ v ≤ 100 :=
  ⟨by decide, by decide, by decide,
   insert_volume_within_limit (initialState 1) Instrument.FUTURE 1 (fun _ => 10200)
     (fun _ => 50) (fun _ => 10000) (fun _ => 100)
     (quotingState,
       [Command.InsertOrder 1 Side.SELL 10400 50 Lifespan.GOOD_FOR_DAY,
        Command.InsertOrder 2 Side.BUY 9800 50 Lifespan.GOOD_FOR_DAY])
     (by decide) (by decide) (by decide)⟩

/-! ## C11: a side without a best price -/

theorem computeQuote_zero_best (p : Int) (askPrices askVolumes bidPrices bidVolumes : Levels)
    (q : Quote) (hq : computeQuote p askPrices askVolumes bidPrices bidVolumes = some q) :
    (askPrices 0 = 0 → q.newAskPrice = 0) ∧ (bidPrices 0 = 0 → q.newBidPrice = 0) := by
  simp only [computeQuote] at hq
  split at hq
  · exact absurd hq (by simp)
  · split at hq
    · exact absurd hq (by simp)
    · rename_i ask hask
      split at hq
      · exact absurd hq (by simp)
      · rename_i bid hbid
        simp only [Option.some.injEq] at hq
        subst hq
        constructor
        · intro h0
          simp [newAskPrice, h0, floatToUnsignedLong] at hask
          exact hask.symm
        · intro h0
          simp [newBidPrice, h0, floatToUnsignedLong] at hbid
          exact hbid.symm

theorem refreshQuotes_commands (s : AutoTrader) (q : Quote) :
    (refreshQuotes s q).2
      = (if s.mAskId ≠ 0 ∧ q.newAskPrice ≠ 0 ∧ q.newAskPrice ≠ s.mAskPrice then
          [Command.CancelOrder s.askCancel] else []) ++
        (if s.mBidId ≠ 0 ∧ q.newBidPrice ≠ 0 ∧ q.newBidPrice ≠ s.mBidPrice then
          [Command.CancelOrder s.bidCancel] else []) ++
        (if q.newAskPrice ≠ 0 ∧ (s.mAskId = 0 ∨ q.newAskPrice ≠ s.mAskPrice) then
          [Command.InsertOrder s.mNextMessageId Side.SELL q.newAskPrice q.new_ask_volume
            Lifespan.GOOD_FOR_DAY] else []) ++
        (if q.newBidPrice ≠ 0 ∧ (s.mBidId = 0 ∨ q.newBidPrice ≠ s.mBidPrice) then
          [Command.InsertOrder
            (if q.newAskPrice ≠ 0 ∧ (s.mAskId = 0 ∨ q.newAskPrice ≠ s.mAskPrice) then
              s.mNextMessageId + 1 else s.mNextMessageId)
            Side.BUY q.newBidPrice q.new_bid_volume Lifespan.GOOD_FOR_DAY] else []) := by
  simp only [refreshQuotes, storeVolumes, cancelAsk, cancelBid, insertAsk, insertBid,
    storeCancels, askStale, bidStale]
  split_ifs <;> simp_all

/-- C11 (refuted as stated): in the initial state the book with best bid 200, best ask 400
and one lot on each side has the fair value 300, which is also the bid offset: the target bid
price is 0, so no BUY order is inserted although the best bid is not 0 and the bid side is
absent.  Only the SELL order at 600 is inserted. -/
theorem nonzero_best_bid_without_insert :
    (OrderBookMessageHandler (initialState 1) Instrument.FUTURE 1 (fun _ => 400) (fun _ => 1)
        (fun _ => 200) (fun _ => 1)).map (fun r => (r.2, r.1.theo, r.1.mBidId))
      = some ([Command.InsertOrder 1 Side.SELL 600 50 Lifespan.GOOD_FOR_DAY], 300, 0) := by
  decide

/-- C11 (amended): let a future order book yield the quote `q`.  If the best ask price is 0,
the target ask price is 0, no ask command is emitted (the commands are those of the bid side
alone) and the resting ask id and price are unchanged; likewise for the bid side when the best
bid price is 0.  Conversely, when the target price of a side is not 0 and the side is absent,
the insert for that side is emitted. -/
theorem zero_best_price_suppresses_side (s : AutoTrader) (n : Nat)
    (askPrices askVolumes bidPrices bidVolumes : Levels) (q : Quote)
    (hq : computeQuote s.mPosition askPrices askVolumes bidPrices bidVolumes = some q) :
    (askPrices 0 = 0 →
      q.newAskPrice = 0 ∧
      (OrderBookMessageHandler s Instrument.FUTURE n askPrices askVolumes bidPrices
          bidVolumes).map (fun r => (r.2, r.1.mAskId, r.1.mAskPrice))
        = some
          ((if s.mBidId ≠ 0 ∧ q.newBidPrice ≠ 0 ∧ q.newBidPrice ≠ s.mBidPrice then
              [Command.CancelOrder s.bidCancel] else []) ++
            (if q.newBidPrice ≠ 0 ∧ (s.mBidId = 0 ∨ q.newBidPrice ≠ s.mBidPrice) then
              [Command.InsertOrder s.mNextMessageId Side.BUY q.newBidPrice q.new_bid_volume
                Lifespan.GOOD_FOR_DAY] else []),
           s.mAskId, s.mAskPrice)) ∧
    (bidPrices 0 = 0 →
      q.newBidPrice = 0 ∧
      (OrderBookMessageHandler s Instrument.FUTURE n askPrices askVolumes bidPrices
          bidVolumes).map (fun r => (r.2, r.1.mBidId, r.1.mBidPrice))
        = some
          ((if s.mAskId ≠ 0 ∧ q.newAskPrice ≠ 0 ∧ q.newAskPrice ≠ s.mAskPrice then
              [Command.CancelOrder s.askCancel] else []) ++
            (if q.newAskPrice ≠ 0 ∧ (s.mAskId = 0 ∨ q.newAskPrice ≠ s.mAskPrice) then
              [Command.InsertOrder s.mNextMessageId Side.SELL q.newAskPrice q.new_ask_volume
                Lifespan.GOOD_FOR_DAY] else []),
           s.mBidId, s.mBidPrice)) ∧
    (q.newAskPrice ≠ 0 → s.mAskId = 0 →
      (OrderBookMessageHandler s Instrument.FUTURE n askPrices askVolumes bidPrices
          bidVolumes).map
          (fun r => decide (Command.InsertOrder s.mNextMessageId Side.SELL q.newAskPrice
            q.new_ask_volume Lifespan.GOOD_FOR_DAY ∈ r.2))
        = some true) ∧
    (q.newBidPrice ≠ 0 → s.mBidId = 0 →
      (OrderBookMessageHandler s Instrument.FUTURE n askPrices askVolumes bidPrices
          bidVolumes).map
          (fun r => decide (Command.InsertOrder
            (if q.newAskPrice ≠ 0 ∧ (s.mAskId = 0 ∨ q.newAskPrice ≠ s.mAskPrice) then
              s.mNextMessageId + 1 else s.mNextMessageId)
            Side.BUY q.newBidPrice q.new_bid_volume Lifespan.GOOD_FOR_DAY ∈ r.2))
        = some true) := by
  obtain ⟨hza, hzb⟩ :=
    computeQuote_zero_best s.mPosition askPrices askVolumes bidPrices bidVolumes q hq
  refine ⟨?_, ?_, ?_, ?_⟩
  · intro h0
    have hz := hza h0
    refine ⟨hz, ?_⟩
    simp only [OrderBookMessageHandler, if_true, hq, Option.map_some', refreshQuotes,
      storeVolumes, cancelAsk, cancelBid, insertAsk, insertBid, storeCancels, askStale,
      bidStale]
    split_ifs <;> simp_all
  · intro h0
    have hz := hzb h0
    refine ⟨hz, ?_⟩
    simp only [OrderBookMessageHandler, if_true, hq, Option.map_some', refreshQuotes,
      storeVolumes, cancelAsk, cancelBid, insertAsk, insertBid, storeCancels, askStale,
      bidStale]
    split_ifs <;> simp_all
  · intro h1 h2
    simp only [OrderBookMessageHandler, if_true, hq, Option.map_some', refreshQuotes_commands]
    simp [h1, h2]
  · intro h1 h2
    simp only [OrderBookMessageHandler, if_true, hq, Option.map_some', refreshQuotes_commands]
    simp [h1, h2]

/-- C11 witness: in the quoting state a book without a best ask (price 0) and with best bid
10000 yields the target ask price 0: nothing is sent for the ask side, which keeps order 1 at
10400, while the bid side is requoted. -/
theorem zero_best_price_suppresses_side_witness :
    computeQuote quotingState.mPosition (fun _ => 0) (fun _ => 50) (fun _ => 10000)
        (fun _ => 100)
        = some { theo := 3300, newAskPrice := 0, newBidPrice := 3000, new_bid_volume := 50,
                 new_ask_volume := 50 } ∧
      ((fun _ => 0) : Levels) 0 = 0 ∧
      (OrderBookMessageHandler quotingState Instrument.FUTURE 2 (fun _ => 0) (fun _ => 50)
          (fun _ => 10000) (fun _ => 100)).map (fun r => (r.2, r.1.mAskId, r.1.mAskPrice))
        = some
          ([Command.CancelOrder 2,
            Command.InsertOrder 3 Side.BUY 3000 50 Lifespan.GOOD_FOR_DAY], 1, 10400) :=
  ⟨by decide, rfl,
   (((zero_best_price_suppresses_side quotingState 2 (fun _ => 0) (fun _ => 50)
      (fun _ => 10000) (fun _ => 100)
      { theo := 3300, newAskPrice := 0, newBidPrice := 3000, new_bid_volume := 50,
        new_ask_volume := 50 } (by decide)).1 rfl).2).trans (by decide)⟩

/-! ## Error messages and status updates in any state -/

/-- In every state `ErrorMessage(id, text)` with a non-zero id is `OrderStatus(id, 0, 0, 0)`:
the ask slot is cleared when it holds `id`, the bid slot when it holds `id` and the ask slot
does not, and `id` is erased from both sets.  The id 0 changes nothing. -/
theorem errorMessage_retires_id (s : AutoTrader) (id : Nat) (msg : String) :
    (id ≠ 0 →
      ErrorMessageHandler s id msg = OrderStatusMessageHandler s id 0 0 0 ∧
      (ErrorMessageHandler s id msg).2 = []) ∧
    (id ≠ 0 → id = s.mAskId →
      (ErrorMessageHandler s id msg).1.mAskId = 0 ∧
      id ∉ (ErrorMessageHandler s id msg).1.mAsks ∧
      id ∉ (ErrorMessageHandler s id msg).1.mBids) ∧
    (id ≠ 0 → id = s.mBidId → id ≠ s.mAskId →
      (ErrorMessageHandler s id msg).1.mBidId = 0 ∧
      id ∉ (ErrorMessageHandler s id msg).1.mAsks ∧
      id ∉ (ErrorMessageHandler s id msg).1.mBids) ∧
    ErrorMessageHandler s 0 msg = (s, []) := by
  refine ⟨?_, ?_, ?_, ?_⟩
  · intro h
    simp [ErrorMessageHandler, OrderStatusMessageHandler, h]
  · intro h1 h2
    subst h2
    simp [ErrorMessageHandler, OrderStatusMessageHandler, h1]
  · intro h1 h2 h3
    subst h2
    simp [ErrorMessageHandler, OrderStatusMessageHandler, h1, h3]
  · simp [ErrorMessageHandler]

theorem bookkeeping_slots (s : AutoTrader) (h : bookkeeping s) :
    s.mAskId = s.mBidId → s.mAskId = 0 := by
  obtain ⟨ha, hb, hd, _⟩ := h
  intro heq
  by_contra hne
  have h1 := ha hne
  have h2 := hb (heq ▸ hne)
  rw [← heq] at h2
  exact (Finset.disjoint_left.mp hd h1) h2

/-- In a state whose two resting slots do not hold the same non-zero id, a status update
for `id` with nothing remaining erases `id` from both sets, clears the slot that holds `id`,
changes nothing else, and is idempotent; with a non-zero remaining volume it changes
nothing. -/
theorem orderStatus_retires_id (s : AutoTrader) (id fillVolume : Nat) (fees : Int)
    (hslots : s.mAskId = s.mBidId → s.mAskId = 0) :
    OrderStatusMessageHandler s id fillVolume 0 fees
        = ({ s with
              mAskId := if id = s.mAskId then 0 else s.mAskId
              mBidId := if id = s.mBidId then 0 else s.mBidId
              mAsks := s.mAsks.erase id
              mBids := s.mBids.erase id }, []) ∧
      id ∉ (OrderStatusMessageHandler s id fillVolume 0 fees).1.mAsks ∧
      id ∉ (OrderStatusMessageHandler s id fillVolume 0 fees).1.mBids ∧
      OrderStatusMessageHandler (OrderStatusMessageHandler s id fillVolume 0 fees).1 id
          fillVolume 0 fees
        = ((OrderStatusMessageHandler s id fillVolume 0 fees).1, []) ∧
      ∀ remainingVolume : Nat, remainingVolume ≠ 0 →
        OrderStatusMessageHandler s id fillVolume remainingVolume fees = (s, []) := by
  have key : ∀ t : AutoTrader, (t.mAskId = t.mBidId → t.mAskId = 0) →
      OrderStatusMessageHandler t id fillVolume 0 fees
        = ({ t with
              mAskId := if id = t.mAskId then 0 else t.mAskId
              mBidId := if id = t.mBidId then 0 else t.mBidId
              mAsks := t.mAsks.erase id
              mBids := t.mBids.erase id }, []) := by
    intro t ht
    simp only [OrderStatusMessageHandler, if_true]
    by_cases h1 : id = t.mAskId
    · subst h1
      have e : (if t.mAskId = t.mBidId then 0 else t.mBidId) = t.mBidId := by
        split_ifs with h
        · rw [← h, ht h]
        · rfl
      simp [e]
    · by_cases h2 : id = t.mBidId
      · subst h2
        simp [h1]
      · simp [h1, h2]
  have e1 := key s hslots
  refine ⟨e1, ?_, ?_, ?_, ?_⟩
  · rw [e1]; simp
  · rw [e1]; simp
  · rw [e1]
    rw [key]
    · cases s
      simp only [Prod.mk.injEq, and_true, AutoTrader.mk.injEq, true_and]
      refine ⟨?_, ?_, ?_, ?_⟩
      · split_ifs <;> simp_all
      · split_ifs <;> simp_all
      · simp
      · simp
    · simp only
      intro h
      split_ifs at h ⊢ <;> simp_all
  · intro r hr
    simp [OrderStatusMessageHandler, hr]

/-! ## C14: what a fill leaves alone -/

/-- C14: for every state and every fill, the resting ids, the resting prices and both
membership sets are unchanged, so a hedge id is never added to a set.  When a hedge order is
emitted, it is the only command, its id is the previous value of the id counter and the
counter moves on by exactly one.  When the id is in neither membership set, nothing is
emitted and the state, with its position and its id counter, is unchanged. -/
theorem order_filled_frame (limits : Limits) (s : AutoTrader) (id price v : Nat) :
    ((OrderFilledMessageHandler limits s id price v).1.mAskId = s.mAskId ∧
      (OrderFilledMessageHandler limits s id price v).1.mBidId = s.mBidId ∧
      (OrderFilledMessageHandler limits s id price v).1.mAskPrice = s.mAskPrice ∧
      (OrderFilledMessageHandler limits s id price v).1.mBidPrice = s.mBidPrice ∧
      (OrderFilledMessageHandler limits s id price v).1.mAsks = s.mAsks ∧
      (OrderFilledMessageHandler limits s id price v).1.mBids = s.mBids) ∧
    (∀ c ∈ (OrderFilledMessageHandler limits s id price v).2,
      (∃ side hedgePrice, c = Command.HedgeOrder s.mNextMessageId side hedgePrice v) ∧
      (OrderFilledMessageHandler limits s id price v).2 = [c] ∧
      (OrderFilledMessageHandler limits s id price v).1.mNextMessageId
        = s.mNextMessageId + 1) ∧
    (id ∉ s.mAsks → id ∉ s.mBids →
      OrderFilledMessageHandler limits s id price v = (s, [])) := by
  refine ⟨?_, ?_, ?_⟩
  · simp only [OrderFilledMessageHandler]
    split_ifs <;> simp
  · intro c hc
    simp only [OrderFilledMessageHandler] at hc ⊢
    split_ifs at hc ⊢ <;> simp_all
  · intro h1 h2
    simp [OrderFilledMessageHandler, h1, h2]

/-- C14 witness: in the quoting state a fill for the unknown id 7 changes nothing and emits
nothing, and a fill for the resting bid 2 emits the hedge with id 3, the value of the
counter. -/
theorem order_filled_frame_witness :
    7 ∉ quotingState.mAsks ∧ 7 ∉ quotingState.mBids ∧
      OrderFilledMessageHandler sampleLimits quotingState 7 9800 10 = (quotingState, []) ∧
      (OrderFilledMessageHandler sampleLimits quotingState 2 9800 10).2
        = [Command.HedgeOrder 3 Side.SELL 1 10] ∧
      (OrderFilledMessageHandler sampleLimits quotingState 2 9800 10).1.mBids
        = quotingState.mBids :=
  ⟨by decide, by decide,
   (order_filled_frame sampleLimits quotingState 7 9800 10).2.2 (by decide) (by decide),
   by decide,
   (order_filled_frame sampleLimits quotingState 2 9800 10).1.2.2.2.2.2⟩

/-! ## C15 and C16: the worked example -/

/-- C15: in the initial state the future order book with best bid 10000 for 100 lots and best
ask 10200 for 50 lots has the fair value 10100 and the tick offsets 3 and 3, and the update
emits exactly a SELL insert at 10400 for 50 lots and a BUY insert at 9800 for 50 lots, both
GOOD_FOR_DAY. -/
theorem worked_example_first_quote :
    fairValue 10000 10200 100 50 = some 10100 ∧
      bidTicks (initialState 1).mPosition = 3 ∧ askTicks (initialState 1).mPosition = 3 ∧
      (OrderBookMessageHandler (initialState 1) Instrument.FUTURE 1 (fun _ => 10200)
          (fun _ => 50) (fun _ => 10000) (fun _ => 100)).map (fun r => (r.2, r.1.theo))
        = some
          ([Command.InsertOrder 1 Side.SELL 10400 50 Lifespan.GOOD_FOR_DAY,
            Command.InsertOrder 2 Side.BUY 9800 50 Lifespan.GOOD_FOR_DAY], 10100) := by
  decide

theorem fairValue_of_weightedQuotient (bidPrice askPrice bidVolume askVolume : Nat) :
    fairValue bidPrice askPrice bidVolume askVolume
      = (weightedQuotient bidPrice askPrice bidVolume askVolume).map
          (fun raw => (raw + 50) % 2 ^ 64 / 100 * 100) := by
  simp only [fairValue, weightedQuotient]
  split_ifs <;> rfl

/-- C16 (refuted as stated): for best bid 10000 with 100 lots and best ask 10200 with 50
lots, the quotient line 83 computes before rounding is 10133, the integer part of
30400/3, and not 10067. -/
theorem worked_example_raw_value_is_not_10067 :
    weightedQuotient 10000 10200 100 50 = some 10133 ∧
      weightedQuotient 10000 10200 100 50 ≠ some 10067 ∧
      weightedMid 10000 10200 100 50 = 30400 / 3 := by
  refine ⟨by decide, by decide, ?_⟩
  simp only [weightedMid]
  norm_num

/-- C16 (amended): for best bid 10000 with 100 lots and best ask 10200 with 50 lots, the
unrounded volume-weighted value the engine computes is 10133 (10133.33 cut to an integer),
and it is this value that rounds to 10100. -/
theorem worked_example_raw_value :
    weightedQuotient 10000 10200 100 50 = some 10133 ∧
      (weightedMid 10000 10200 100 50 - 1 < 10133 ∧
        (10133 : ℚ) ≤ weightedMid 10000 10200 100 50) ∧
      fairValue 10000 10200 100 50
        = (weightedQuotient 10000 10200 100 50).map
            (fun raw => (raw + 50) % 2 ^ 64 / 100 * 100) ∧
      (10133 + 50) % 2 ^ 64 / 100 * 100 = 10100 ∧
      fairValue 10000 10200 100 50 = some 10100 := by
  refine ⟨by decide, ?_, fairValue_of_weightedQuotient _ _ _ _, by decide, by decide⟩
  simp only [weightedMid]
  constructor <;> norm_num

/-! ## C19: sizes inside the position limit -/

/-- C19: for every position `p` between -100 and 100 the target sizes satisfy
`0 <= bidVolume <= 100`, `0 <= askVolume <= 100`, `bidVolume + askVolume = 100`,
`p + bidVolume <= 100` and `p - askVolume >= -100`; every quote computed at position `p`
carries these sizes. -/
theorem sizes_respect_position_limit (p : Int) (hlow : -100 ≤ p) (hhigh : p ≤ 100) :
    (0 ≤ (quoteVolumes p).1 ∧ (quoteVolumes p).1 ≤ 100) ∧
      (0 ≤ (quoteVolumes p).2 ∧ (quoteVolumes p).2 ≤ 100) ∧
      (quoteVolumes p).1 + (quoteVolumes p).2 = 100 ∧
      p + (quoteVolumes p).1 ≤ 100 ∧ -100 ≤ p - (quoteVolumes p).2 ∧
      ∀ (askPrices askVolumes bidPrices bidVolumes : Levels) (q : Quote),
        computeQuote p askPrices askVolumes bidPrices bidVolumes = some q →
          q.new_bid_volume = (quoteVolumes p).1 ∧ q.new_ask_volume = (quoteVolumes p).2 := by
  refine ⟨?_, ?_, ?_, ?_, ?_, ?_⟩
  · rw [quoteVolumes_of_int p (by omega) (by omega)]
    split_ifs <;> (simp only []; omega)
  · rw [quoteVolumes_of_int p (by omega) (by omega)]
    split_ifs <;> (simp only []; omega)
  · rw [quoteVolumes_of_int p (by omega) (by omega)]
    split_ifs <;> (simp only []; omega)
  · rw [quoteVolumes_of_int p (by omega) (by omega)]
    split_ifs <;> (simp only []; omega)
  · rw [quoteVolumes_of_int p (by omega) (by omega)]
    split_ifs <;> (simp only []; omega)
  · intro askPrices askVolumes bidPrices bidVolumes q hq
    exact computeQuote_volumes p askPrices askVolumes bidPrices bidVolumes q hq

/-- C19 witness: at the limit position 100 the bid size is 0 and the ask size is 100. -/
theorem sizes_respect_position_limit_witness :
    (-100 : Int) ≤ 100 ∧ (100 : Int) ≤ 100 ∧ quoteVolumes 100 = (0, 100) ∧
      (100 : Int) + (quoteVolumes 100).1 ≤ 100 ∧ (-100 : Int) ≤ 100 - (quoteVolumes 100).2 :=
  ⟨by decide, by decide, by decide,
   (sizes_respect_position_limit 100 (by decide) (by decide)).2.2.2.1,
   (sizes_respect_position_limit 100 (by decide) (by decide)).2.2.2.2.1⟩

/-! ## C17: bookkeeping of slots, sets and counter -/

theorem bookkeeping_initialState (nextId : Nat) (hid : 1 ≤ nextId) :
    bookkeeping (initialState nextId) := by
  simp only [bookkeeping, initialState]
  refine ⟨fun h => absurd rfl h, fun h => absurd rfl h, ?_, ?_, ?_, ?_, ?_, ?_, ?_⟩ <;>
    first | omega | simp

theorem cancelAsk_bookkeeping (s : AutoTrader) (q : Quote) (h : bookkeeping s) :
    bookkeeping (cancelAsk s q).1 := by
  obtain ⟨h1, h2, h3, h4, h5, h6, h7, h8, h9⟩ := h
  simp only [cancelAsk]
  split_ifs
  · exact ⟨fun h => absurd rfl h, h2, h3, h4, h5, h6, h7, by simp only; omega, h9⟩
  · exact ⟨h1, h2, h3, h4, h5, h6, h7, h8, h9⟩

theorem cancelBid_bookkeeping (s : AutoTrader) (q : Quote) (h : bookkeeping s) :
    bookkeeping (cancelBid s q).1 := by
  obtain ⟨h1, h2, h3, h4, h5, h6, h7, h8, h9⟩ := h
  simp only [cancelBid]
  split_ifs
  · exact ⟨h1, fun h => absurd rfl h, h3, h4, h5, h6, h7, h8, by simp only; omega⟩
  · exact ⟨h1, h2, h3, h4, h5, h6, h7, h8, h9⟩

theorem insertAsk_bookkeeping (s : AutoTrader) (q : Quote) (h : bookkeeping s) :
    bookkeeping (insertAsk s q).1 := by
  obtain ⟨h1, h2, h3, h4, h5, h6, h7, h8, h9⟩ := h
  simp only [insertAsk]
  split_ifs
  · refine ⟨fun _ => Finset.mem_insert_self _ _, h2, ?_, ?_, h5, ?_, ?_, ?_, ?_⟩
    · rw [Finset.disjoint_insert_left]
      exact ⟨fun hm => absurd (h7 _ hm) (lt_irrefl _), h3⟩
    · simp only [Finset.mem_insert, not_or]
      exact ⟨by omega, h4⟩
    · intro id hid
      simp only [Finset.mem_insert] at hid
      rcases hid with rfl | hid
      · exact Nat.lt_succ_self _
      · exact Nat.lt_succ_of_lt (h6 id hid)
    · intro id hid
      exact Nat.lt_succ_of_lt (h7 id hid)
    · exact Nat.lt_succ_self _
    · exact Nat.lt_succ_of_lt h9
  · exact ⟨h1, h2, h3, h4, h5, h6, h7, h8, h9⟩

theorem insertBid_bookkeeping (s : AutoTrader) (q : Quote) (h : bookkeeping s) :
    bookkeeping (insertBid s q).1 := by
  obtain ⟨h1, h2, h3, h4, h5, h6, h7, h8, h9⟩ := h
  simp only [insertBid]
  split_ifs
  · refine ⟨h1, fun _ => Finset.mem_insert_self _ _, ?_, h4, ?_, ?_, ?_, ?_, ?_⟩
    · rw [Finset.disjoint_insert_right]
      exact ⟨fun hm => absurd (h6 _ hm) (lt_irrefl _), h3⟩
    · simp only [Finset.mem_insert, not_or]
      exact ⟨by omega, h5⟩
    · intro id hid
      exact Nat.lt_succ_of_lt (h6 id hid)
    · intro id hid
      simp only [Finset.mem_insert] at hid
      rcases hid with rfl | hid
      · exact Nat.lt_succ_self _
      · exact Nat.lt_succ_of_lt (h7 id hid)
    · exact Nat.lt_succ_of_lt h8
    · exact Nat.lt_succ_self _
  · exact ⟨h1, h2, h3, h4, h5, h6, h7, h8, h9⟩

theorem refreshQuotes_bookkeeping (s : AutoTrader) (q : Quote) (h : bookkeeping s) :
    bookkeeping (refreshQuotes s q).1 := by
  have h0 : bookkeeping (storeVolumes s q) := h
  have hr :=
    insertBid_bookkeeping _ q
      (insertAsk_bookkeeping _ q
        (cancelBid_bookkeeping _ q (cancelAsk_bookkeeping _ q h0)))
  exact hr

theorem orderFilled_bookkeeping (limits : Limits) (s : AutoTrader) (id price v : Nat)
    (h : bookkeeping s) : bookkeeping (OrderFilledMessageHandler limits s id price v).1 := by
  obtain ⟨h1, h2, h3, h4, h5, h6, h7, h8, h9⟩ := h
  simp only [OrderFilledMessageHandler]
  split_ifs
  · exact ⟨h1, h2, h3, h4, h5, fun i hi => Nat.lt_succ_of_lt (h6 i hi),
      fun i hi => Nat.lt_succ_of_lt (h7 i hi), Nat.lt_succ_of_lt h8, Nat.lt_succ_of_lt h9⟩
  · exact ⟨h1, h2, h3, h4, h5, fun i hi => Nat.lt_succ_of_lt (h6 i hi),
      fun i hi => Nat.lt_succ_of_lt (h7 i hi), Nat.lt_succ_of_lt h8, Nat.lt_succ_of_lt h9⟩
  · exact ⟨h1, h2, h3, h4, h5, h6, h7, h8, h9⟩

theorem orderStatus_zero_remaining (t : AutoTrader) (id fillVolume : Nat) (fees : Int)
    (ht : t.mAskId = t.mBidId → t.mAskId = 0) :
    OrderStatusMessageHandler t id fillVolume 0 fees
      = ({ t with
            mAskId := if id = t.mAskId then 0 else t.mAskId
            mBidId := if id = t.mBidId then 0 else t.mBidId
            mAsks := t.mAsks.erase id
            mBids := t.mBids.erase id }, []) := by
  simp only [OrderStatusMessageHandler, if_true]
  by_cases h1 : id = t.mAskId
  · subst h1
    have e : (if t.mAskId = t.mBidId then 0 else t.mBidId) = t.mBidId := by
      split_ifs with h
      · rw [← h, ht h]
      · rfl
    simp [e]
  · by_cases h2 : id = t.mBidId
    · subst h2
      simp [h1]
    · simp [h1, h2]

theorem orderStatus_bookkeeping (s : AutoTrader) (id fillVolume remainingVolume : Nat)
    (fees : Int) (h : bookkeeping s) :
    bookkeeping (OrderStatusMessageHandler s id fillVolume remainingVolume fees).1 := by
  by_cases hr : remainingVolume = 0
  · subst hr
    have hslots := bookkeeping_slots s h
    rw [orderStatus_zero_remaining s id fillVolume fees hslots]
    obtain ⟨h1, h2, h3, h4, h5, h6, h7, h8, h9⟩ := h
    refine ⟨?_, ?_, ?_, ?_, ?_, ?_, ?_, ?_, ?_⟩
    · simp only
      intro hne
      split_ifs at hne ⊢ with hc
      · exact absurd rfl hne
      · exact Finset.mem_erase.mpr ⟨fun e => hc e.symm, h1 hne⟩
    · simp only
      intro hne
      split_ifs at hne ⊢ with hc
      · exact absurd rfl hne
      · exact Finset.mem_erase.mpr ⟨fun e => hc e.symm, h2 hne⟩
    · exact Finset.disjoint_of_subset_left (Finset.erase_subset _ _)
        (Finset.disjoint_of_subset_right (Finset.erase_subset _ _) h3)
    · exact fun hm => h4 (Finset.mem_of_mem_erase hm)
    · exact fun hm => h5 (Finset.mem_of_mem_erase hm)
    · exact fun i hi => h6 i (Finset.mem_of_mem_erase hi)
    · exact fun i hi => h7 i (Finset.mem_of_mem_erase hi)
    · simp only
      split_ifs <;> omega
    · simp only
      split_ifs <;> omega
  · simp only [OrderStatusMessageHandler, if_neg hr]
    exact h

theorem step_bookkeeping (limits : Limits) (s s1 : AutoTrader) (e : Event)
    (cmds : List Command) (h : step limits s e = some (s1, cmds)) (hs : bookkeeping s) :
    bookkeeping s1 := by
  cases e with
  | OrderBook i n ap av bp bv =>
    simp only [step, OrderBookMessageHandler] at h
    split_ifs at h with hi
    · cases hq : computeQuote s.mPosition ap av bp bv with
      | none => simp [hq] at h
      | some q =>
        simp only [hq, Option.some.injEq] at h
        have := refreshQuotes_bookkeeping s q hs
        rw [h] at this
        exact this
    · simp only [Option.some.injEq, Prod.mk.injEq] at h
      obtain ⟨rfl, rfl⟩ := h
      exact hs
  | TradeTicks i n ap av bp bv =>
    simp only [step, TradeTicksMessageHandler, Option.some.injEq, Prod.mk.injEq] at h
    obtain ⟨rfl, rfl⟩ := h
    exact hs
  | OrderFilled id p v =>
    simp only [step, Option.some.injEq] at h
    have := orderFilled_bookkeeping limits s id p v hs
    rw [h] at this
    exact this
  | OrderStatus id f r fees =>
    simp only [step, Option.some.injEq] at h
    have := orderStatus_bookkeeping s id f r fees hs
    rw [h] at this
    exact this
  | ErrorMessage id msg =>
    simp only [step, ErrorMessageHandler, Option.some.injEq] at h
    split_ifs at h
    · have := orderStatus_bookkeeping s id 0 0 0 hs
      rw [h] at this
      exact this
    · simp only [Prod.mk.injEq] at h
      obtain ⟨rfl, rfl⟩ := h
      exact hs
  | HedgeFilled id p v =>
    simp only [step, HedgeFilledMessageHandler, Option.some.injEq, Prod.mk.injEq] at h
    obtain ⟨rfl, rfl⟩ := h
    exact hs

theorem run_bookkeeping (limits : Limits) (events : List Event) :
    ∀ (s s1 : AutoTrader) (cmds : List Command), run limits s events = some (s1, cmds) →
      bookkeeping s → bookkeeping s1 := by
  induction events with
  | nil =>
    intro s s1 cmds h hs
    simp only [run, Option.some.injEq, Prod.mk.injEq] at h
    obtain ⟨rfl, rfl⟩ := h
    exact hs
  | cons e es ih =>
    intro s s1 cmds h hs
    simp only [run] at h
    cases hstep : step limits s e with
    | none => simp [hstep] at h
    | some r =>
      obtain ⟨sa, ca⟩ := r
      simp only [hstep] at h
      cases hr : run limits sa es with
      | none => simp [hr] at h
      | some r2 =>
        obtain ⟨sb, cb⟩ := r2
        simp only [hr, Option.some.injEq, Prod.mk.injEq] at h
        obtain ⟨rfl, rfl⟩ := h
        exact ih sa sb cb hr (step_bookkeeping limits s sa e ca hstep hs)

/-- C17: in every state reached from the initial state (first id at least 1) by a sequence
of events, a non-zero resting ask id is in the ask membership set and a non-zero resting bid
id is in the bid membership set, the two sets are disjoint, 0 is in neither, and every id in
a set or in a resting slot is below the id counter. -/
theorem reachable_bookkeeping (limits : Limits) (nextId : Nat) (hid : 1 ≤ nextId)
    (events : List Event) (s : AutoTrader) (cmds : List Command)
    (hrun : run limits (initialState nextId) events = some (s, cmds)) :
    (s.mAskId ≠ 0 → s.mAskId ∈ s.mAsks) ∧ (s.mBidId ≠ 0 → s.mBidId ∈ s.mBids) ∧
      Disjoint s.mAsks s.mBids ∧ 0 ∉ s.mAsks ∧ 0 ∉ s.mBids ∧
      (∀ id ∈ s.mAsks, id < s.mNextMessageId) ∧ (∀ id ∈ s.mBids, id < s.mNextMessageId) ∧
      s.mAskId < s.mNextMessageId ∧ s.mBidId < s.mNextMessageId :=
  run_bookkeeping limits events (initialState nextId) s cmds hrun
    (bookkeeping_initialState nextId hid)

/-- C17 witness: the sample session ends with ask order 4 and bid order 5 resting, the sets
disjoint and the counter at 6. -/
theorem reachable_bookkeeping_witness :
    1 ≤ 1 ∧
      (run sampleLimits (initialState 1) sampleSession).map
          (fun r => (r.1.mAskId, r.1.mBidId, r.1.mNextMessageId)) = some (4, 5, 6) ∧
      ∀ s cmds, run sampleLimits (initialState 1) sampleSession = some (s, cmds) →
        (s.mAskId ≠ 0 → s.mAskId ∈ s.mAsks) ∧ Disjoint s.mAsks s.mBids ∧
          s.mAskId < s.mNextMessageId :=
  ⟨by decide, by decide, fun s cmds hrun =>
    ⟨(reachable_bookkeeping sampleLimits 1 (by decide) sampleSession s cmds hrun).1,
     (reachable_bookkeeping sampleLimits 1 (by decide) sampleSession s cmds hrun).2.2.1,
     (reachable_bookkeeping sampleLimits 1 (by decide) sampleSession s cmds hrun).2.2.2.2.2.2.2.1⟩⟩

/-! ## C18: the position and the hedges -/

theorem hedgeVolume_append (side : Side) (a b : List Command) :
    hedgeVolume side (a ++ b) = hedgeVolume side a + hedgeVolume side b := by
  induction a with
  | nil => simp [hedgeVolume]
  | cons x xs ih =>
    cases x <;> simp [hedgeVolume, ih]
    omega

theorem hedgeVolume_nonneg (side : Side) (cmds : List Command) : 0 ≤ hedgeVolume side cmds := by
  induction cmds with
  | nil => simp [hedgeVolume]
  | cons x xs ih =>
    cases x <;> simp only [hedgeVolume] <;> try exact ih
    split_ifs <;> omega

theorem refreshQuotes_no_hedge (s : AutoTrader) (q : Quote) :
    hedgeOrders (refreshQuotes s q).2 = [] ∧
      ∀ side, hedgeVolume side (refreshQuotes s q).2 = 0 := by
  rw [refreshQuotes_commands]
  constructor
  · split_ifs <;> simp [hedgeOrders]
  · intro side
    split_ifs <;> simp [hedgeVolume]

theorem step_position (limits : Limits) (s s1 : AutoTrader) (e : Event) (cmds : List Command)
    (h : step limits s e = some (s1, cmds)) :
    (-2 ^ 63 ≤ s.mPosition - (hedgeVolume Side.SELL cmds + hedgeVolume Side.BUY cmds) →
      s.mPosition + (hedgeVolume Side.SELL cmds + hedgeVolume Side.BUY cmds) < 2 ^ 63 →
      s1.mPosition = s.mPosition + hedgeVolume Side.SELL cmds - hedgeVolume Side.BUY cmds) ∧
      (¬ isOrderFilled e → s1.mPosition = s.mPosition ∧ hedgeOrders cmds = []) := by
  cases e with
  | OrderBook i n ap av bp bv =>
    simp only [step, OrderBookMessageHandler] at h
    split_ifs at h with hi
    · cases hq : computeQuote s.mPosition ap av bp bv with
      | none => simp [hq] at h
      | some q =>
        simp only [hq, Option.some.injEq] at h
        have hp := refreshQuotes_position s q
        obtain ⟨hh, hv⟩ := refreshQuotes_no_hedge s q
        have h1 := hv Side.SELL
        have h2 := hv Side.BUY
        rw [h] at hp hh h1 h2
        simp only at hp hh h1 h2
        exact ⟨fun _ _ => by rw [hp, h1, h2]; ring, fun _ => ⟨hp, hh⟩⟩
    · simp only [Option.some.injEq, Prod.mk.injEq] at h
      obtain ⟨rfl, rfl⟩ := h
      simp [hedgeVolume, hedgeOrders]
  | TradeTicks i n ap av bp bv =>
    simp only [step, TradeTicksMessageHandler, Option.some.injEq, Prod.mk.injEq] at h
    obtain ⟨rfl, rfl⟩ := h
    simp [hedgeVolume, hedgeOrders]
  | OrderFilled id p v =>
    simp only [step, OrderFilledMessageHandler, Option.some.injEq] at h
    refine ⟨?_, fun hne => absurd trivial hne⟩
    split_ifs at h <;>
      (simp only [Prod.mk.injEq] at h; obtain ⟨rfl, rfl⟩ := h
       simp only [hedgeVolume, if_true, if_false, add_zero, zero_add, sub_zero,
         reduceCtorEq]
       intro h1 h2)
    · rw [wrapLong_of_range (v : Int) (by omega) (by omega),
        wrapLong_of_range _ (by omega) (by omega)]
    · rw [wrapLong_of_range (v : Int) (by omega) (by omega),
        wrapLong_of_range _ (by omega) (by omega)]
    · trivial
  | OrderStatus id f r fees =>
    simp only [step, OrderStatusMessageHandler, Option.some.injEq] at h
    split_ifs at h <;>
      (simp only [Prod.mk.injEq] at h; obtain ⟨rfl, rfl⟩ := h
       simp [hedgeVolume, hedgeOrders])
  | ErrorMessage id msg =>
    simp only [step, ErrorMessageHandler, OrderStatusMessageHandler, Option.some.injEq] at h
    split_ifs at h <;>
      (simp only [Prod.mk.injEq] at h; obtain ⟨rfl, rfl⟩ := h
       simp [hedgeVolume, hedgeOrders])
  | HedgeFilled id p v =>
    simp only [step, HedgeFilledMessageHandler, Option.some.injEq, Prod.mk.injEq] at h
    obtain ⟨rfl, rfl⟩ := h
    simp [hedgeVolume, hedgeOrders]

theorem run_position (limits : Limits) (events : List Event) :
    ∀ (s s1 : AutoTrader) (cmds : List Command), run limits s events = some (s1, cmds) →
      -2 ^ 63 ≤ s.mPosition - (hedgeVolume Side.SELL cmds + hedgeVolume Side.BUY cmds) →
      s.mPosition + (hedgeVolume Side.SELL cmds + hedgeVolume Side.BUY cmds) < 2 ^ 63 →
      s1.mPosition = s.mPosition + hedgeVolume Side.SELL cmds - hedgeVolume Side.BUY cmds := by
  induction events with
  | nil =>
    intro s s1 cmds h _ _
    simp only [run, Option.some.injEq, Prod.mk.injEq] at h
    obtain ⟨rfl, rfl⟩ := h
    simp [hedgeVolume]
  | cons e es ih =>
    intro s s1 cmds h hlow hhigh
    simp only [run] at h
    cases hstep : step limits s e with
    | none => simp [hstep] at h
    | some r =>
      obtain ⟨sa, ca⟩ := r
      simp only [hstep] at h
      cases hr : run limits sa es with
      | none => simp [hr] at h
      | some r2 =>
        obtain ⟨sb, cb⟩ := r2
        simp only [hr, Option.some.injEq, Prod.mk.injEq] at h
        obtain ⟨rfl, rfl⟩ := h
        rw [hedgeVolume_append, hedgeVolume_append] at hlow hhigh ⊢
        have a1 := hedgeVolume_nonneg Side.SELL ca
        have a2 := hedgeVolume_nonneg Side.BUY ca
        have b1 := hedgeVolume_nonneg Side.SELL cb
        have b2 := hedgeVolume_nonneg Side.BUY cb
        have h1 := (step_position limits s sa e ca hstep).1 (by omega) (by omega)
        have h2 := ih sa sb cb hr (by omega) (by omega)
        omega

/-- C18 (refuted as stated): when the resting ask is reported filled for `2 ^ 64 - 1` lots,
the session ends with position 1, while the hedge BUY orders total `2 ^ 64 - 1` lots and no
hedge SELL was emitted: the position is not the hedge SELL total minus the hedge BUY
total. -/
theorem position_differs_from_net_hedges :
    (run sampleLimits (initialState 1) wrapFillSession).map
        (fun r => (r.1.mPosition, hedgeVolume Side.SELL r.2, hedgeVolume Side.BUY r.2))
      = some (1, 0, 18446744073709551615) ∧
      (1 : Int) ≠ 0 - 18446744073709551615 := by
  decide

/-- C18 (amended): for every sequence of events handled from the initial state whose hedge
orders total less than `2 ^ 63` lots, the position equals the total volume of the hedge SELL
orders emitted so far minus the total volume of the hedge BUY orders emitted so far.  In
every state, an event other than an order fill leaves the position unchanged and emits no
hedge order. -/
theorem position_equals_net_hedges (limits : Limits) (nextId : Nat) (events : List Event)
    (s : AutoTrader) (cmds : List Command)
    (hrun : run limits (initialState nextId) events = some (s, cmds))
    (hsmall : hedgeVolume Side.SELL cmds + hedgeVolume Side.BUY cmds < 2 ^ 63) :
    s.mPosition = hedgeVolume Side.SELL cmds - hedgeVolume Side.BUY cmds ∧
      ∀ (t t1 : AutoTrader) (e : Event) (emitted : List Command), ¬ isOrderFilled e →
        step limits t e = some (t1, emitted) →
          t1.mPosition = t.mPosition ∧ hedgeOrders emitted = [] := by
  constructor
  · have h0 : (initialState nextId).mPosition = 0 := rfl
    have a1 := hedgeVolume_nonneg Side.SELL cmds
    have a2 := hedgeVolume_nonneg Side.BUY cmds
    have h := run_position limits events (initialState nextId) s cmds hrun
      (by rw [h0]; omega) (by rw [h0]; omega)
    rw [h0] at h
    rw [h]
    ring
  · intro t t1 e emitted he hstep
    exact (step_position limits t t1 e emitted hstep).2 he

/-- C18 witness: the sample session fills 20 lots of the ask and hedges them with a BUY of
20 lots: the position is -20. -/
theorem position_equals_net_hedges_witness :
    (run sampleLimits (initialState 1) sampleSession).map
        (fun r => (r.1.mPosition, hedgeVolume Side.SELL r.2, hedgeVolume Side.BUY r.2))
      = some (-20, 0, 20) ∧
    ∀ s cmds, run sampleLimits (initialState 1) sampleSession = some (s, cmds) →
      hedgeVolume Side.SELL cmds + hedgeVolume Side.BUY cmds < 2 ^ 63 →
      s.mPosition = hedgeVolume Side.SELL cmds - hedgeVolume Side.BUY cmds :=
  ⟨by decide, fun s cmds hrun hsmall =>
    (position_equals_net_hedges sampleLimits 1 sampleSession s cmds hrun hsmall).1⟩

/-! ## C20: the spread at the position limit -/

theorem ticks_within_limit (p : Int) (hlow : -100 ≤ p) (hhigh : p ≤ 100) :
    ∃ k : Nat, 1 ≤ k ∧ k ≤ 5 ∧ bidTicks p = (k : Int) ∧ askTicks p = 6 - (k : Int) ∧
      bidAdjustment p = k * 100 ∧ askAdjustment p = (6 - k) * 100 := by
  have hd : -2 ≤ Int.tdiv p 50 ∧ Int.tdiv p 50 ≤ 2 := by
    rcases le_or_lt 0 p with h | h
    · rw [Int.tdiv_eq_ediv h (by decide)]
      omega
    · have h1 : Int.tdiv p 50 = -(Int.tdiv (-p) 50) := by rw [Int.neg_tdiv, neg_neg]
      rw [h1, Int.tdiv_eq_ediv (by omega : (0 : Int) ≤ -p) (by decide)]
      omega
  obtain ⟨hd1, hd2⟩ := hd
  refine ⟨(3 + Int.tdiv p 50).toNat, ?_, ?_, ?_, ?_, ?_, ?_⟩
  · omega
  · omega
  · simp only [bidTicks]
    omega
  · simp only [askTicks]
    omega
  · simp only [bidAdjustment, bidTicks, toUnsignedLong, TICK_SIZE_IN_CENTS]
    have e : (3 + Int.tdiv p 50) * ((100 : Nat) : Int) % 2 ^ 64
        = (3 + Int.tdiv p 50) * 100 := by
      apply Int.emod_eq_of_lt <;> (push_cast; omega)
    rw [e]
    omega
  · simp only [askAdjustment, askTicks, toUnsignedLong, TICK_SIZE_IN_CENTS]
    have e : (3 - Int.tdiv p 50) * ((100 : Nat) : Int) % 2 ^ 64
        = (3 - Int.tdiv p 50) * 100 := by
      apply Int.emod_eq_of_lt <;> (push_cast; omega)
    rw [e]
    omega

theorem newAskPrice_exact (theo adjustment askPrice : Nat) (hask : askPrice ≠ 0)
    (hsmall : theo + adjustment < 2 ^ 24) :
    newAskPrice (theo : Int) askPrice adjustment = some (theo + adjustment) := by
  have h1 : floatOfInt (adjustment : Int) = (adjustment : Int) :=
    floatOfInt_small adjustment (by omega)
  have h2 : floatOfInt (((theo + adjustment : Nat)) : Int) = ((theo + adjustment : Nat) : Int) :=
    floatOfInt_small (theo + adjustment) hsmall
  simp only [newAskPrice, if_pos hask, h1]
  rw [← Int.ofNat_add, h2]
  simp only [floatToUnsignedLong]
  rw [if_pos (by constructor <;> omega)]
  exact congrArg some (Int.toNat_ofNat _)

theorem newBidPrice_exact (theo adjustment bidPrice : Nat) (hbid : bidPrice ≠ 0)
    (hle : adjustment ≤ theo) (hsmall : theo < 2 ^ 24) :
    newBidPrice (theo : Int) bidPrice adjustment = some (theo - adjustment) := by
  have h1 : floatOfInt (adjustment : Int) = (adjustment : Int) :=
    floatOfInt_small adjustment (by omega)
  have h2 : floatOfInt (((theo - adjustment : Nat)) : Int) = ((theo - adjustment : Nat) : Int) :=
    floatOfInt_small (theo - adjustment) (by omega)
  simp only [newBidPrice, if_pos hbid, h1]
  rw [← Int.ofNat_sub hle, h2]
  simp only [floatToUnsignedLong]
  rw [if_pos (by constructor <;> omega)]
  exact congrArg some (Int.toNat_ofNat _)

/-- The part of the claim on the spread that the code does meet: inside the position limit
the tick offsets lie in 1..5 and add up to 6, and for a fair value that is a multiple of the
tick, at least 500 and, with five ticks added, below `2 ^ 24`, the target prices are
multiples of the tick on either side of the fair value, six ticks apart. -/
theorem targetPrices_six_ticks_apart (p : Int) (hlow : -100 ≤ p) (hhigh : p ≤ 100)
    (theo askPrice bidPrice : Nat) (htick : 100 ∣ theo) (hmin : 500 ≤ theo)
    (hsmall : theo + 500 < 2 ^ 24) (hask : askPrice ≠ 0) (hbid : bidPrice ≠ 0) :
    (1 ≤ bidTicks p ∧ bidTicks p ≤ 5 ∧ 1 ≤ askTicks p ∧ askTicks p ≤ 5 ∧
      bidTicks p + askTicks p = 6) ∧
    ∃ ask bid : Nat,
      newAskPrice (theo : Int) askPrice (askAdjustment p) = some ask ∧
      newBidPrice (theo : Int) bidPrice (bidAdjustment p) = some bid ∧
      bid < theo ∧ theo < ask ∧ ask - bid = 600 ∧ 100 ∣ ask ∧ 100 ∣ bid := by
  obtain ⟨k, hk1, hk5, hb, ha, hbadj, haadj⟩ := ticks_within_limit p hlow hhigh
  refine ⟨by omega, theo + (6 - k) * 100, theo - k * 100, ?_, ?_, by omega, by omega, by omega,
    ?_, ?_⟩
  · rw [haadj]
    exact newAskPrice_exact theo _ askPrice hask (by omega)
  · rw [hbadj]
    exact newBidPrice_exact theo _ bidPrice hbid (by omega) (by omega)
  · exact Dvd.dvd.add htick (Dvd.intro_left _ rfl)
  · exact Nat.dvd_sub' htick (Dvd.intro_left _ rfl)

/-- C20 (the code at a failing input): at position 0 the book with both best prices at
67108800 and one lot on each side has the fair value 67108800, a multiple of the tick above
500, and the tick offsets 3 and 3.  Line 91 adds the ask offset in `float`: the target ask
price is 67109104 instead of 67109100.  It is not a multiple of 100, and it lies 604 above
the target bid price 67108500. -/
theorem large_fair_value_breaks_spread :
    bidTicks (initialState 1).mPosition = 3 ∧ askTicks (initialState 1).mPosition = 3 ∧
      (OrderBookMessageHandler (initialState 1) Instrument.FUTURE 1 (fun _ => 67108800)
          (fun _ => 1) (fun _ => 67108800) (fun _ => 1)).map
          (fun r => (r.1.theo, r.1.mAskPrice, r.1.mBidPrice))
        = some (67108800, 67109104, 67108500) ∧
      ¬ (100 ∣ 67109104) ∧ 67109104 - 67108500 = 604 := by
  decide

/-! ## C9: skew and sizes -/

theorem floatOfInt_nonneg (n : Nat) : 0 ≤ floatOfInt (n : Int) := by
  simp only [floatOfInt]
  rw [if_pos (Int.ofNat_nonneg n)]
  exact Int.ofNat_nonneg _

theorem computeQuote_prices (p : Int) (askPrices askVolumes bidPrices bidVolumes : Levels)
    (q : Quote) (hq : computeQuote p askPrices askVolumes bidPrices bidVolumes = some q) :
    newAskPrice q.theo (askPrices 0) (askAdjustment p) = some q.newAskPrice ∧
      newBidPrice q.theo (bidPrices 0) (bidAdjustment p) = some q.newBidPrice ∧
      0 ≤ q.theo := by
  simp only [computeQuote] at hq
  split at hq
  · exact absurd hq (by simp)
  · split at hq
    · exact absurd hq (by simp)
    · rename_i ask hask
      split at hq
      · exact absurd hq (by simp)
      · rename_i bid hbid
        simp only [Option.some.injEq] at hq
        subst hq
        exact ⟨hask, hbid, floatOfInt_nonneg _⟩

theorem refreshQuotes_stored (s : AutoTrader) (q : Quote) :
    (refreshQuotes s q).1.theo = q.theo ∧ (refreshQuotes s q).1.bid_volume = q.new_bid_volume ∧
      (refreshQuotes s q).1.ask_volume = q.new_ask_volume := by
  simp only [refreshQuotes, storeVolumes, cancelAsk, cancelBid, insertAsk, insertBid,
    storeCancels]
  split_ifs <;> exact ⟨rfl, rfl, rfl⟩

theorem toUnsignedLong_of_nonneg (x : Int) (h0 : 0 ≤ x) (h1 : x < 2 ^ 64) :
    toUnsignedLong x = x.toNat := by
  simp only [toUnsignedLong]
  rw [Int.emod_eq_of_lt h0 h1]

/-- C9 (refuted as stated): once the resting ask is reported filled for `2 ^ 32 + 100` lots
the position is -4294967396.  The excess `-p - 50` is narrowed to the `int diff`, which
holds 50: the next future order book computes the ask size 0 and the bid size 100, not
`50 - (-p - 50)` and `50 + (-p - 50)`, and inserts a SELL order of volume 0. -/
theorem sizes_narrowed_to_int :
    (run sampleLimits (initialState 1) hugeFillSession).map
        (fun r => (r.1.mPosition, r.1.bid_volume, r.1.ask_volume, r.2.drop 4))
      = some (-4294967396, 100, 0,
          [Command.InsertOrder 4 Side.SELL 8589941760 0 Lifespan.GOOD_FOR_DAY]) ∧
      quoteVolumes (-4294967396) = (100, 0) ∧
      (50 - (-(-4294967396 : Int) - 50), 50 + (-(-4294967396 : Int) - 50))
        = ((-4294967296 : Int), (4294967396 : Int)) := by
  decide

/-- C9 (amended): for every position `p` that an `int` holds (`-2 ^ 31 < p < 2 ^ 31`), a
future order book whose quote is defined gives the sizes 50 and 50 when `-50 <= p <= 50`,
`bidVolume = 50 - (p - 50)` and `askVolume = 50 + (p - 50)` when `p > 50`,
`askVolume = 50 - (-p - 50)` and `bidVolume = 50 + (-p - 50)` when `p < -50`, and its target
prices are lines 91 and 92 applied to the offsets of `3 - p/50` ticks for the ask and
`3 + p/50` ticks for the bid, the division truncating toward zero: while the `float`
arithmetic is exact, the target ask is `3 - p/50` ticks above and the target bid `3 + p/50`
ticks below the fair value.  The handler stores this fair value and these sizes. -/
theorem quote_policy_ticks_and_sizes (s : AutoTrader) (n : Nat)
    (askPrices askVolumes bidPrices bidVolumes : Levels) (q : Quote)
    (hq : computeQuote s.mPosition askPrices askVolumes bidPrices bidVolumes = some q)
    (hlow : -2 ^ 31 < s.mPosition) (hhigh : s.mPosition < 2 ^ 31) :
    ((-50 ≤ s.mPosition → s.mPosition ≤ 50 →
        q.new_bid_volume = 50 ∧ q.new_ask_volume = 50) ∧
      (50 < s.mPosition →
        q.new_bid_volume = 50 - (s.mPosition - 50) ∧
        q.new_ask_volume = 50 + (s.mPosition - 50)) ∧
      (s.mPosition < -50 →
        q.new_ask_volume = 50 - (-s.mPosition - 50) ∧
        q.new_bid_volume = 50 + (-s.mPosition - 50))) ∧
    (newAskPrice q.theo (askPrices 0) (toUnsignedLong ((3 - Int.tdiv s.mPosition 50) * 100))
        = some q.newAskPrice ∧
      newBidPrice q.theo (bidPrices 0) (toUnsignedLong ((3 + Int.tdiv s.mPosition 50) * 100))
        = some q.newBidPrice) ∧
    (askPrices 0 ≠ 0 → 0 ≤ 3 - Int.tdiv s.mPosition 50 →
      q.theo + (3 - Int.tdiv s.mPosition 50) * 100 < 2 ^ 24 →
        (q.newAskPrice : Int) = q.theo + (3 - Int.tdiv s.mPosition 50) * 100) ∧
    (bidPrices 0 ≠ 0 → 0 ≤ 3 + Int.tdiv s.mPosition 50 →
      (3 + Int.tdiv s.mPosition 50) * 100 ≤ q.theo → q.theo < 2 ^ 24 →
        (q.newBidPrice : Int) = q.theo - (3 + Int.tdiv s.mPosition 50) * 100) ∧
    ((0 ≤ s.mPosition → Int.tdiv s.mPosition 50 = s.mPosition / 50) ∧
      (s.mPosition < 0 → Int.tdiv s.mPosition 50 = -((-s.mPosition) / 50))) ∧
    (OrderBookMessageHandler s Instrument.FUTURE n askPrices askVolumes bidPrices
        bidVolumes).map (fun r => (r.1.theo, r.1.bid_volume, r.1.ask_volume))
      = some (q.theo, q.new_bid_volume, q.new_ask_volume) := by
  obtain ⟨hb, ha⟩ :=
    computeQuote_volumes s.mPosition askPrices askVolumes bidPrices bidVolumes q hq
  obtain ⟨hpa, hpb, hth⟩ :=
    computeQuote_prices s.mPosition askPrices askVolumes bidPrices bidVolumes q hq
  have hvol := quoteVolumes_of_int s.mPosition hlow hhigh
  have eask : askAdjustment s.mPosition
      = toUnsignedLong ((3 - Int.tdiv s.mPosition 50) * 100) := by
    simp [askAdjustment, askTicks, TICK_SIZE_IN_CENTS]
  have ebid : bidAdjustment s.mPosition
      = toUnsignedLong ((3 + Int.tdiv s.mPosition 50) * 100) := by
    simp [bidAdjustment, bidTicks, TICK_SIZE_IN_CENTS]
  rw [eask] at hpa
  rw [ebid] at hpb
  refine ⟨⟨?_, ?_, ?_⟩, ⟨hpa, hpb⟩, ?_, ?_, ⟨?_, ?_⟩, ?_⟩
  · intro h1 h2
    rw [hb, ha, hvol, if_neg (by omega), if_neg (by omega)]
    exact ⟨rfl, rfl⟩
  · intro h1
    rw [hb, ha, hvol, if_neg (by omega), if_pos (by omega)]
    exact ⟨rfl, rfl⟩
  · intro h1
    rw [hb, ha, hvol, if_pos h1]
    exact ⟨rfl, rfl⟩
  · intro h0 hk hsmall
    obtain ⟨t, ht⟩ := Int.eq_ofNat_of_zero_le hth
    obtain ⟨a, hadj⟩ := Int.eq_ofNat_of_zero_le
      (by omega : (0 : Int) ≤ (3 - Int.tdiv s.mPosition 50) * 100)
    rw [hadj] at hsmall ⊢
    rw [ht] at hsmall hpa ⊢
    rw [hadj, toUnsignedLong_of_nonneg _ (by omega) (by omega), Int.toNat_ofNat,
      newAskPrice_exact t a (askPrices 0) h0 (by omega)] at hpa
    simp only [Option.some.injEq] at hpa
    rw [← hpa]
    push_cast
    rfl
  · intro h0 hk hle hsmall
    obtain ⟨t, ht⟩ := Int.eq_ofNat_of_zero_le hth
    obtain ⟨a, hadj⟩ := Int.eq_ofNat_of_zero_le
      (by omega : (0 : Int) ≤ (3 + Int.tdiv s.mPosition 50) * 100)
    rw [hadj] at hle ⊢
    rw [ht] at hsmall hle hpb ⊢
    rw [hadj, toUnsignedLong_of_nonneg _ (by omega) (by omega), Int.toNat_ofNat,
      newBidPrice_exact t a (bidPrices 0) h0 (by omega) (by omega)] at hpb
    simp only [Option.some.injEq] at hpb
    rw [← hpb]
    exact Int.ofNat_sub (by omega)
  · intro h
    exact Int.tdiv_eq_ediv h (by decide)
  · intro h
    have h1 : Int.tdiv s.mPosition 50 = -(Int.tdiv (-s.mPosition) 50) := by
      rw [Int.neg_tdiv, neg_neg]
    rw [h1, Int.tdiv_eq_ediv (by omega : (0 : Int) ≤ -s.mPosition) (by decide)]
  · obtain ⟨e1, e2, e3⟩ := refreshQuotes_stored s q
    simp only [OrderBookMessageHandler, if_true, hq, Option.map_some', e1, e2, e3]

/-- C9 witness: at position 80 the excess is 30, the sizes are 20 to buy and 80 to sell, and
with the fair value 10100 the target ask is 2 ticks above at 10300 and the target bid 4
ticks below at 9700. -/
theorem quote_policy_ticks_and_sizes_witness :
    computeQuote skewedState.mPosition (fun _ => 10200) (fun _ => 50) (fun _ => 10000)
        (fun _ => 100)
        = some { theo := 10100, newAskPrice := 10300, newBidPrice := 9700,
                 new_bid_volume := 20, new_ask_volume := 80 } ∧
      (-2 ^ 31 < skewedState.mPosition ∧ skewedState.mPosition < 2 ^ 31) ∧
      (50 : Int) < skewedState.mPosition ∧ skewedState.mPosition - 50 = 30 ∧
      3 - Int.tdiv skewedState.mPosition 50 = 2 ∧ 3 + Int.tdiv skewedState.mPosition 50 = 4 ∧
      ((20 : Int) = 50 - (skewedState.mPosition - 50) ∧
        (80 : Int) = 50 + (skewedState.mPosition - 50)) ∧
      ((10300 : Nat) : Int) = 10100 + (3 - Int.tdiv skewedState.mPosition 50) * 100 :=
  ⟨by decide, by decide, by decide, by decide, by decide, by decide,
   (quote_policy_ticks_and_sizes skewedState 2 (fun _ => 10200) (fun _ => 50)
      (fun _ => 10000) (fun _ => 100)
      { theo := 10100, newAskPrice := 10300, newBidPrice := 9700, new_bid_volume := 20,
        new_ask_volume := 80 } (by decide) (by decide) (by decide)).1.2.1 (by decide),
   (quote_policy_ticks_and_sizes skewedState 2 (fun _ => 10200) (fun _ => 50)
      (fun _ => 10000) (fun _ => 100)
      { theo := 10100, newAskPrice := 10300, newBidPrice := 9700, new_bid_volume := 20,
        new_ask_volume := 80 } (by decide) (by decide) (by decide)).2.2.1
      (by decide) (by decide) (by decide)⟩

/-! ## C12 and C13 on the reachable states -/

/-- C12: in every state reached from the initial state, for every non-zero id and every
error text, `ErrorMessage(id, text)` gives the state and the empty command list of
`OrderStatus(id, 0, 0, 0)`; in particular, if `id` is the resting ask id the ask side becomes
absent, if `id` is the resting bid id the bid side becomes absent, and `id` is in neither
membership set afterwards.  For the id 0 the state is unchanged and nothing is emitted. -/
theorem error_message_as_zero_remaining_status (limits : Limits) (nextId : Nat)
    (hid : 1 ≤ nextId) (events : List Event) (s : AutoTrader) (cmds : List Command)
    (hrun : run limits (initialState nextId) events = some (s, cmds)) (id : Nat)
    (msg : String) :
    (id ≠ 0 →
      ErrorMessageHandler s id msg = OrderStatusMessageHandler s id 0 0 0 ∧
      (ErrorMessageHandler s id msg).2 = []) ∧
    (id ≠ 0 → id = s.mAskId →
      (ErrorMessageHandler s id msg).1.mAskId = 0 ∧
      id ∉ (ErrorMessageHandler s id msg).1.mAsks ∧
      id ∉ (ErrorMessageHandler s id msg).1.mBids) ∧
    (id ≠ 0 → id = s.mBidId →
      (ErrorMessageHandler s id msg).1.mBidId = 0 ∧
      id ∉ (ErrorMessageHandler s id msg).1.mAsks ∧
      id ∉ (ErrorMessageHandler s id msg).1.mBids) ∧
    ErrorMessageHandler s 0 msg = (s, []) := by
  have hslots := bookkeeping_slots s
    (run_bookkeeping limits events (initialState nextId) s cmds hrun
      (bookkeeping_initialState nextId hid))
  obtain ⟨h1, h2, h3, h4⟩ := errorMessage_retires_id s id msg
  refine ⟨h1, h2, ?_, h4⟩
  intro hne hb
  refine h3 hne hb ?_
  intro ha
  have h0 : s.mAskId = 0 := hslots (ha.symm.trans hb)
  exact hne (ha.trans h0)

/-- C12 witness: the quoting state is reached by the first book of a session; an error
message for its resting bid order 2 leaves the bid side absent and the id 2 in neither set,
exactly as the status update does. -/
theorem error_message_as_zero_remaining_status_witness :
    1 ≤ 1 ∧
      run sampleLimits (initialState 1) [futureBook 1 10200 50 10000 100]
        = some (quotingState,
            [Command.InsertOrder 1 Side.SELL 10400 50 Lifespan.GOOD_FOR_DAY,
             Command.InsertOrder 2 Side.BUY 9800 50 Lifespan.GOOD_FOR_DAY]) ∧
      (2 : Nat) ≠ 0 ∧ 2 = quotingState.mBidId ∧
      ErrorMessageHandler quotingState 2 "rejected"
        = OrderStatusMessageHandler quotingState 2 0 0 0 ∧
      (ErrorMessageHandler quotingState 2 "rejected").1.mBidId = 0 ∧
      2 ∉ (ErrorMessageHandler quotingState 2 "rejected").1.mBids :=
  ⟨by decide, by decide, by decide, by decide,
   ((error_message_as_zero_remaining_status sampleLimits 1 (by decide)
      [futureBook 1 10200 50 10000 100] quotingState
      [Command.InsertOrder 1 Side.SELL 10400 50 Lifespan.GOOD_FOR_DAY,
       Command.InsertOrder 2 Side.BUY 9800 50 Lifespan.GOOD_FOR_DAY]
      (by decide) 2 "rejected").1 (by decide)).1,
   ((error_message_as_zero_remaining_status sampleLimits 1 (by decide)
      [futureBook 1 10200 50 10000 100] quotingState
      [Command.InsertOrder 1 Side.SELL 10400 50 Lifespan.GOOD_FOR_DAY,
       Command.InsertOrder 2 Side.BUY 9800 50 Lifespan.GOOD_FOR_DAY]
      (by decide) 2 "rejected").2.2.1 (by decide) (by decide)).1,
   ((error_message_as_zero_remaining_status sampleLimits 1 (by decide)
      [futureBook 1 10200 50 10000 100] quotingState
      [Command.InsertOrder 1 Side.SELL 10400 50 Lifespan.GOOD_FOR_DAY,
       Command.InsertOrder 2 Side.BUY 9800 50 Lifespan.GOOD_FOR_DAY]
      (by decide) 2 "rejected").2.2.1 (by decide) (by decide)).2.2⟩

/-- C13: in every state reached from the initial state and for every id, a status update
for `id` with nothing remaining emits nothing, leaves `id` in neither membership set, clears
the side whose resting id equals `id` and changes nothing else (position, id counter,
resting prices, the other slot and the globals keep their values); applying the same update
a second time changes nothing.  A status update with a non-zero remaining volume changes
nothing. -/
theorem zero_remaining_status_retires_id (limits : Limits) (nextId : Nat) (hid : 1 ≤ nextId)
    (events : List Event) (s : AutoTrader) (cmds : List Command)
    (hrun : run limits (initialState nextId) events = some (s, cmds))
    (id fillVolume : Nat) (fees : Int) :
    OrderStatusMessageHandler s id fillVolume 0 fees
        = ({ s with
              mAskId := if id = s.mAskId then 0 else s.mAskId
              mBidId := if id = s.mBidId then 0 else s.mBidId
              mAsks := s.mAsks.erase id
              mBids := s.mBids.erase id }, []) ∧
      id ∉ (OrderStatusMessageHandler s id fillVolume 0 fees).1.mAsks ∧
      id ∉ (OrderStatusMessageHandler s id fillVolume 0 fees).1.mBids ∧
      (id = s.mAskId → (OrderStatusMessageHandler s id fillVolume 0 fees).1.mAskId = 0) ∧
      (id = s.mBidId → (OrderStatusMessageHandler s id fillVolume 0 fees).1.mBidId = 0) ∧
      OrderStatusMessageHandler (OrderStatusMessageHandler s id fillVolume 0 fees).1 id
          fillVolume 0 fees
        = ((OrderStatusMessageHandler s id fillVolume 0 fees).1, []) ∧
      ∀ remainingVolume : Nat, remainingVolume ≠ 0 →
        OrderStatusMessageHandler s id fillVolume remainingVolume fees = (s, []) := by
  have hslots := bookkeeping_slots s
    (run_bookkeeping limits events (initialState nextId) s cmds hrun
      (bookkeeping_initialState nextId hid))
  obtain ⟨h1, h2, h3, h4, h5⟩ := orderStatus_retires_id s id fillVolume fees hslots
  refine ⟨h1, h2, h3, ?_, ?_, h4, h5⟩
  · intro ha
    rw [h1]
    simp [ha]
  · intro hb
    rw [h1]
    simp [hb]

/-- C13 witness: the quoting state is reached by the first book of a session; the status
update that reports its resting ask order 1 as done leaves the ask side absent and 1 in
neither set, and repeating it changes nothing. -/
theorem zero_remaining_status_retires_id_witness :
    1 ≤ 1 ∧
      run sampleLimits (initialState 1) [futureBook 1 10200 50 10000 100]
        = some (quotingState,
            [Command.InsertOrder 1 Side.SELL 10400 50 Lifespan.GOOD_FOR_DAY,
             Command.InsertOrder 2 Side.BUY 9800 50 Lifespan.GOOD_FOR_DAY]) ∧
      (OrderStatusMessageHandler quotingState 1 50 0 7).1.mAskId = 0 ∧
      1 ∉ (OrderStatusMessageHandler quotingState 1 50 0 7).1.mAsks ∧
      OrderStatusMessageHandler (OrderStatusMessageHandler quotingState 1 50 0 7).1 1 50 0 7
        = ((OrderStatusMessageHandler quotingState 1 50 0 7).1, []) :=
  ⟨by decide, by decide,
   (zero_remaining_status_retires_id sampleLimits 1 (by decide)
      [futureBook 1 10200 50 10000 100] quotingState
      [Command.InsertOrder 1 Side.SELL 10400 50 Lifespan.GOOD_FOR_DAY,
       Command.InsertOrder 2 Side.BUY 9800 50 Lifespan.GOOD_FOR_DAY]
      (by decide) 1 50 7).2.2.2.1 (by decide),
   (zero_remaining_status_retires_id sampleLimits 1 (by decide)
      [futureBook 1 10200 50 10000 100] quotingState
      [Command.InsertOrder 1 Side.SELL 10400 50 Lifespan.GOOD_FOR_DAY,
       Command.InsertOrder 2 Side.BUY 9800 50 Lifespan.GOOD_FOR_DAY]
      (by decide) 1 50 7).2.1,
   (zero_remaining_status_retires_id sampleLimits 1 (by decide)
      [futureBook 1 10200 50 10000 100] quotingState
      [Command.InsertOrder 1 Side.SELL 10400 50 Lifespan.GOOD_FOR_DAY,
       Command.InsertOrder 2 Side.BUY 9800 50 Lifespan.GOOD_FOR_DAY]
      (by decide) 1 50 7).2.2.2.2.2.1⟩

end ReadyTraderGo
